import Mathlib

/-
Verification development for the request-dispatch / action-invocation engine of
aio-cli-plugin-app-dev (src/src/lib/run-action.js).

The JavaScript code is shallowly embedded: JS values are modelled by the
inductive type JSV, JS objects by association lists of (key, value) pairs with
unique keys, and the dispatch functions (invokeAction, invokeSequence,
serveWebAction, createActionParametersFromRequest, isWebAction,
isRawWebAction) are translated definition by definition from the source.

Modelling conventions, noted where they matter:
  * JS objects are canonicalized: a field whose value is `undefined` is not
    stored (JS keeps the key with value undefined; the engine only observes
    fields through property reads, truthiness tests, spreads and Object.keys
    followed by truthiness tests, for which the two representations are
    observationally identical).
  * `process.env` is modelled by an explicit ProcEnv record threaded through
    invokeAction; `crypto.randomBytes(...)` is modelled by an explicit
    activation-id argument (a generator `Nat -> String` for sequences).
  * `require(path)` is modelled by a Loader parameter
    `String -> ModuleLoad`; `delete require.cache[...]` has no observable
    effect in the model (the loader is consulted fresh on every call).
  * an action main function receives the parameter object and the current
    ProcEnv (actions can read process.env) and either returns a JS value or
    throws.
-/

set_option autoImplicit false

namespace RunAction

/-- JavaScript runtime values, as far as the dispatch engine observes them. -/
inductive JSV where
  | undefined
  | null
  | bool (b : Bool)
  | num (n : Int)
  | str (s : String)
  | arr (elems : List JSV)
  | obj (fields : List (String × JSV))
deriving Repr

/-- Association-list lookup used to model JS property access on objects. -/
def lookupField : List (String × JSV) → String → Option JSV
  | [], _ => none
  | (k, v) :: rest, key => if k = key then some v else lookupField rest key

/-- JS property read `o[key]`: undefined on a missing key or a non-object. -/
def JSV.get : JSV → String → JSV
  | .obj fields, key => (lookupField fields key).getD .undefined
  | _, _ => .undefined

/-- JS truthiness (ToBoolean). -/
def truthy : JSV → Bool
  | .undefined => false
  | .null => false
  | .bool b => b
  | .num n => n != 0
  | .str s => s ≠ ""
  | .arr _ => true
  | .obj _ => true

/-- Updating the first occurrence of a key in place, appending a fresh key
at the end: JS insertion-order update semantics (the stores this is applied
to never hold a key twice). -/
def osetKeep (fields : List (String × JSV)) (key : String) (v : JSV) :
    List (String × JSV) :=
  match fields with
  | [] => [(key, v)]
  | kv :: rest =>
    if kv.1 = key then (key, v) :: rest else kv :: osetKeep rest key v

/-- Setting a field of a (canonicalized) JS object: assigning `undefined`
removes the key, otherwise the key is updated or appended. -/
def oset (fields : List (String × JSV)) (key : String) (v : JSV) :
    List (String × JSV) :=
  match v with
  | .undefined => fields.filter (fun kv => kv.1 ≠ key)
  | _ => osetKeep fields key v

/-- A JS object literal `{k1: v1, ..., kn: vn}` (later keys override earlier
ones, undefined-valued fields are dropped per the canonicalization). -/
def objLit (kvs : List (String × JSV)) : List (String × JSV) :=
  kvs.foldl (fun acc kv => oset acc kv.1 kv.2) []

/-- Spreading a value into an object literal: `{...v}` contributes the fields
of an object and nothing for the other values that occur in this engine. -/
def spreadFields : JSV → List (String × JSV)
  | .obj fields => fields
  | _ => []

/-! ### String primitives

The JS string operations the engine uses (`trim`, `split` on a one-character
separator, `toLowerCase`, `Array.join`) are defined over the character list
of the string so that they compute by definitional unfolding; for the ASCII
data handled here they agree with the JS primitives. -/

/-- The whitespace characters `String.prototype.trim` strips (restricted to
the ASCII ones). -/
def isJsSpace (c : Char) : Bool :=
  c == ' ' || c == '\t' || c == '\n' || c == '\r' || c == '\x0b' || c == '\x0c'

/-- JS `s.trim()`. -/
def jsTrim (s : String) : String :=
  ⟨((s.data.dropWhile isJsSpace).reverse.dropWhile isJsSpace).reverse⟩

/-- Split on a separator character, keeping empty pieces; an empty string
yields one empty piece, as in JS `s.split(sep)`. -/
def jsSplitAux (sep : Char) : List Char → List Char → List String
  | [], acc => [⟨acc.reverse⟩]
  | c :: rest, acc =>
    if c = sep then ⟨acc.reverse⟩ :: jsSplitAux sep rest []
    else jsSplitAux sep rest (c :: acc)

/-- JS `s.split(sep)` for a one-character separator. -/
def jsSplit (s : String) (sep : Char) : List String :=
  jsSplitAux sep s.data []

/-- JS `s.toLowerCase()` (ASCII). -/
def jsToLower (s : String) : String :=
  ⟨s.data.map Char.toLower⟩

/-- JS `parts.join(sep)`. -/
def jsJoin (sep : Char) : List String → String
  | [] => ""
  | [x] => x
  | x :: y :: rest => x ++ ⟨[sep]⟩ ++ jsJoin sep (y :: rest)

/-- JS strict equality of a value with a string literal. -/
def strictEqStr : JSV → String → Bool
  | .str t, s => t = s
  | _, _ => false

/-- JS strict equality of a value with the boolean literal `false`. -/
def isFalseLiteral : JSV → Bool
  | .bool b => !b
  | _ => false

/-- JS strict equality of a value with `undefined`. -/
def isUndefined : JSV → Bool
  | .undefined => true
  | _ => false

/-! ## Manifest data model

`devConfig.manifest.full.packages` maps package names to packages; a package
holds `actions` (always present in the manifest shape this engine consumes:
`serveWebAction` reads `actionConfig[packageName]?.actions[itemName]` with no
optional chaining on `actions`) and optionally `sequences` (read with
optional chaining). An action carries the path of its entry point
(`function`), its default inputs, its annotations and the legacy `web`
flag; a sequence carries its comma-joined action list (possibly absent) and
the same web-exposure fields. -/

/-- An action entry of the manifest. -/
structure ActionDef where
  function : String
  inputs : List (String × JSV)
  annotations : List (String × JSV)
  web : JSV

/-- A sequence entry of the manifest. -/
structure SequenceDef where
  actions : Option String
  annotations : List (String × JSV)
  web : JSV

/-- A package of the manifest. -/
structure PackageDef where
  actions : List (String × ActionDef)
  sequences : Option (List (String × SequenceDef))

/-- The whole `manifest.full.packages` mapping. -/
def ActionConfig : Type := List (String × PackageDef)

/-- Association-list lookup for manifest maps. -/
def assocLookup {α : Type} : List (String × α) → String → Option α
  | [], _ => none
  | (k, v) :: rest, key => if k = key then some v else assocLookup rest key

/-- `actionConfig[packageName]` (undefined-propagating). -/
def lookupPackage (cfg : ActionConfig) (packageName : String) :
    Option PackageDef :=
  assocLookup cfg packageName

/-- `actionConfig?.[packageName]?.actions[itemName]`. -/
def lookupAction (cfg : ActionConfig) (packageName itemName : String) :
    Option ActionDef :=
  (lookupPackage cfg packageName).bind (fun pk => assocLookup pk.actions itemName)

/-- `actionConfig[packageName]?.sequences?.[itemName]`. -/
def lookupSequence (cfg : ActionConfig) (packageName itemName : String) :
    Option SequenceDef :=
  (lookupPackage cfg packageName).bind
    (fun pk => pk.sequences.bind (fun sq => assocLookup sq itemName))

/-- The item `serveWebAction` classifies and dispatches: an action or a
sequence of the manifest. -/
inductive ContextItem where
  | action (a : ActionDef)
  | seq (s : SequenceDef)

/-- `item?.annotations?.['web-export']` for either kind of item. -/
def webExportValue : ContextItem → JSV
  | .action a => (lookupField a.annotations "web-export").getD .undefined
  | .seq s => (lookupField s.annotations "web-export").getD .undefined

/-- `item?.web` for either kind of item. -/
def webValue : ContextItem → JSV
  | .action a => a.web
  | .seq s => s.web

/-! ## Web-exposure classifier (source: isWebAction, isRawWebAction) -/

/-- The local `toBoolean` helper of `isWebAction`:
`(value) => (value !== 'no' && value !== 'false' && value !== false
&& value !== undefined)`. -/
def toBoolean (value : JSV) : Bool :=
  !strictEqStr value "no" && !strictEqStr value "false" &&
    !isFalseLiteral value && !isUndefined value

/-- `isWebAction` from the source: an item is web-exposed when its
`web-export` annotation or its legacy `web` flag passes `toBoolean`. -/
def isWebAction (item : ContextItem) : Bool :=
  toBoolean (webExportValue item) || toBoolean (webValue item)

/-- `isRawWebAction` from the source: the annotation or flag is exactly
the string literal raw. -/
def isRawWebAction (item : ContextItem) : Bool :=
  strictEqStr (webExportValue item) "raw" || strictEqStr (webValue item) "raw"

/-! ## Action invoker (source: invokeAction) -/

/-- A JS object in canonical form. -/
abbrev Obj : Type := List (String × JSV)

/-- The two process-wide markers the invoker touches:
`process.env.__OW_ACTIVATION_ID` and `process.env.__OW_ACTION_NAME`
(`none` models an unset environment variable). -/
structure ProcEnv where
  owActivationId : Option String
  owActionName : Option String
deriving Repr, DecidableEq

/-- Outcome of awaiting an action main function. -/
inductive ExecOutcome where
  | thrown
  | returned (v : JSV)

/-- An action main function: it receives the parameter object and can read
the current process environment; it returns a value or throws. -/
def ActionFn : Type := Obj → ProcEnv → ExecOutcome

/-- Outcome of `require(path)?.main`: the load itself may throw
(missing file, top-level error), or the module loads with or without a
callable truthy `main` export. -/
inductive ModuleLoad where
  | loadFailure
  | loadedNoMain
  | loadedMain (main : ActionFn)

/-- The module system, `require` after `delete require.cache[...]`:
consulted fresh on every invocation. -/
def Loader : Type := String → ModuleLoad

/-- Result of `invokeAction`: the returned ActionResponse object, or an
exception that escaped the function (nothing catches a `require` throw). -/
inductive InvokeOutcome where
  | result (r : Obj)
  | uncaught

/-- JS ToNumber restricted to the values compared as status codes; `none`
models NaN. String conversion is approximated by decimal integer parsing
(every status code the engine itself produces is a number literal). -/
def toNumber : JSV → Option Int
  | .num n => some n
  | .bool b => some (if b then 1 else 0)
  | .null => some 0
  | .undefined => none
  | .str s => if s.trim = "" then some (0 : Int) else s.trim.toInt?
  | .arr _ => none
  | .obj _ => none

/-- The `statusCode >= 400` test (false on NaN, as in JS). -/
def isErrorStatus (v : JSV) : Bool :=
  match toNumber v with
  | some n => n ≥ 400
  | none => false

/-- `typeof v === 'object'` (true for objects, arrays and null). -/
def typeofIsObject : JSV → Bool
  | .obj _ => true
  | .arr _ => true
  | .null => true
  | _ => false

/-- `Array.isArray`. -/
def isArray : JSV → Bool
  | .arr _ => true
  | _ => false

/-- `params.__ow_headers ?? {}` as an object field list. -/
def headerFields (params : Obj) : Obj :=
  spreadFields ((lookupField params "__ow_headers").getD .undefined)

/-- The case-insensitive header copy of the auth gate:
`Object.keys(h).reduce((obj, k) => { obj[k.toLowerCase()] = h[k]; ... }, {})`. -/
def lowercaseHeaders (headers : Obj) : Obj :=
  headers.foldl (fun acc kv => oset acc (jsToLower kv.1) kv.2) []

/-- The ordered list of headers the auth gate requires. -/
def requiredAuthHeaders : List String := ["authorization", "x-gw-ims-org-id"]

/-- The first required header whose (lower-cased) entry is missing or falsy,
mirroring the `for ... of` loop with its early return. -/
def missingAuthHeader (owHeaders : Obj) : Option String :=
  requiredAuthHeaders.find?
    (fun k => !truthy ((lookupField owHeaders k).getD .undefined))

/-- The 401 result the auth gate produces for a missing header. -/
def authErrorResult (headerKey : String) : Obj :=
  objLit [("statusCode", .num 401),
          ("body", .obj (objLit [("error",
            .str ("cannot authorize request, reason: missing " ++ headerKey
              ++ " header"))]))]

/-- The auth gate at the top of `invokeAction` (lines 369-386): `some r`
is the 401 result it returns early, `none` lets execution proceed. -/
def authGate (action : ActionDef) (params : Obj) : Option Obj :=
  if truthy ((lookupField action.annotations "require-adobe-auth").getD .undefined)
  then
    match missingAuthHeader (lowercaseHeaders (headerFields params)) with
    | some headerKey => some (authErrorResult headerKey)
    | none => none
  else none

/-- The fixed InvalidResponse body
`{error: "Response is not valid 'message/http'."}`. -/
def invalidResponseBody : JSV :=
  .obj [("error", .str "Response is not valid \x27message/http\x27.")]

/-- Assigning to process.env coerces the value to a string; `invokeSequence`
passes no `contextItemName`, in which case `__OW_ACTION_NAME` receives the
string form of undefined. -/
def envVarString : Option String → String
  | some s => s
  | none => "undefined"

/-- The local `headers` of invokeAction: `response.headers`, read only when
a response is present. -/
def responseHeaders (response : JSV) : JSV :=
  if truthy response then response.get "headers" else .undefined

/-- The local `statusCode` of invokeAction after defaulting: taken from
`response.error.statusCode` when the `error` field is truthy, from
`response.statusCode` otherwise, 204 when there is no response data, and
then `statusCode || 200`. -/
def responseStatus (response : JSV) : JSV :=
  let statusCode0 :=
    if truthy response then
      if truthy (response.get "error") then
        (response.get "error").get "statusCode"
      else response.get "statusCode"
    else .num 204
  if truthy statusCode0 then statusCode0 else .num 200

/-- The local `body` of invokeAction after defaulting (`body || ''`). -/
def responseBody (response : JSV) : JSV :=
  let body0 :=
    if truthy response then
      if truthy (response.get "error") then (response.get "error").get "body"
      else response.get "body"
    else .str ""
  if truthy body0 then body0 else .str ""

/-- Normalization of a main function return value into the canonical
ActionResponse object (invokeAction lines 398-435): the extracted
headers/statusCode/body, and — when the status is not an error and the
value is a non-array object — all the fields of the value spread under
them. -/
def normalizeResponse (response : JSV) : Obj :=
  let isError := isErrorStatus (responseStatus response)
  let isObject := typeofIsObject response && !isArray response
  objLit ((if isObject && !isError then spreadFields response else []) ++
    [("headers", responseHeaders response),
     ("statusCode", responseStatus response),
     ("body", responseBody response)])

/-- `invokeAction` (lines 365-455). The activation id generated by
`crypto.randomBytes` is an explicit argument; the process environment is
threaded explicitly. A `require` failure escapes as `.uncaught` — the
`require` call sits outside the try/catch. -/
def invokeAction (loader : Loader) (env : ProcEnv) (newActivationId : String)
    (action : ActionDef) (actionName : Option String) (params : Obj) :
    InvokeOutcome × ProcEnv :=
  match authGate action params with
  | some r => (.result r, env)
  | none =>
    let env1 : ProcEnv := { env with owActivationId := some newActivationId }
    match loader action.function with
    | .loadFailure => (.uncaught, env1)
    | .loadedNoMain =>
      (.result (objLit [("statusCode", .num 400),
        ("body", invalidResponseBody)]), env1)
    | .loadedMain main =>
      let newName : Option String := some (envVarString actionName)
      let env2 : ProcEnv := { env1 with owActionName := newName }
      match main params env2 with
      | .thrown =>
        (.result (objLit [("statusCode", .num 400),
          ("body", invalidResponseBody)]), env2)
      | .returned response =>
        let env3 : ProcEnv := { env2 with owActionName := none }
        (.result (normalizeResponse response), env3)

/-! ## Sequence executor (source: invokeSequence)

The executor is instrumented with a trace of StepRecord entries, one per
`invokeAction` call it makes (the trimmed action name, the parameter object
it passed, and the call's outcome); the trace adds observability only and
does not influence any computed value. -/

/-- One `invokeAction` call made by the sequence loop. -/
structure StepRecord where
  name : String
  params : Obj
  outcome : InvokeOutcome

/-- Result of a sequence run: the final `lastActionResponse` (null when the
loop body never ran), or an exception escaping from a step. -/
inductive SeqOutcome where
  | response (r : JSV)
  | uncaught

/-- The terminal error for an unresolved sequence component:
`{statusCode: 400, body: {error: 'Sequence component does not exist.'}}`. -/
def seqComponentError : Obj :=
  objLit [("statusCode", .num 400),
    ("body", .obj (objLit [("error",
      .str "Sequence component does not exist.")]))]

/-- The parameter object for a step at position i > 0:
`{__ow_headers: sequenceParams.__ow_headers,
__ow_method: sequenceParams.__ow_method, ...action?.inputs,
...lastActionResponse}`. -/
def seqStepParams (sequenceParams : Obj) (inputs : Obj) (last : JSV) : Obj :=
  objLit
    ([("__ow_headers", (lookupField sequenceParams "__ow_headers").getD .undefined),
      ("__ow_method", (lookupField sequenceParams "__ow_method").getD .undefined)]
      ++ inputs ++ spreadFields last)

/-- The `for` loop of `invokeSequence` (lines 325-352), recursing over the
remaining (untrimmed) elements with the loop index, environment and
`lastActionResponse` threaded through. -/
def invokeSequenceAux (loader : Loader) (genId : Nat → String)
    (cfg : ActionConfig) (packageName : String) (sequenceParams : Obj) :
    List String → Nat → ProcEnv → JSV → SeqOutcome × ProcEnv × List StepRecord
  | [], _, env, last => (.response last, env, [])
  | elem :: rest, i, env, last =>
    let actionName := jsTrim elem
    match lookupAction cfg packageName actionName with
    | some action =>
      -- the source computes actionParams before testing `if (action)` using
      -- `action?.inputs`; the parameters are only used when the action
      -- exists, so they are built here from `action.inputs` directly
      let actionParams :=
        if i = 0 then sequenceParams
        else seqStepParams sequenceParams action.inputs last
      match invokeAction loader env (genId i) action none actionParams with
      | (.uncaught, env') =>
        (.uncaught, env', [⟨actionName, actionParams, .uncaught⟩])
      | (.result r, env') =>
        if isErrorStatus ((lookupField r "statusCode").getD .undefined) then
          (.response (.obj r), env', [⟨actionName, actionParams, .result r⟩])
        else
          let next := invokeSequenceAux loader genId cfg packageName
            sequenceParams rest (i + 1) env' (.obj r)
          (next.1, next.2.1, ⟨actionName, actionParams, .result r⟩ :: next.2.2)
    | none => (.response (.obj seqComponentError), env, [])

/-- `invokeSequence` (lines 316-355): split
`sequence?.actions?.split(',') ?? []` and run the loop from index 0 with
`lastActionResponse = null`. -/
def invokeSequence (loader : Loader) (genId : Nat → String)
    (cfg : ActionConfig) (packageName : String) (sequence : Option SequenceDef)
    (sequenceParams : Obj) (env : ProcEnv) :
    SeqOutcome × ProcEnv × List StepRecord :=
  let actions : List String :=
    match sequence with
    | some s =>
      match s.actions with
      | some str => jsSplit str ','
      | none => []
    | none => []
  invokeSequenceAux loader genId cfg packageName sequenceParams actions 0 env
    .null

/-! ## Parameter synthesizer and web router
(source: createActionParametersFromRequest, serveWebAction) -/

/-- The parts of an Express request the engine reads. `isJson` models
`req.is('application/json')`. -/
structure Request where
  urlParam : String
  body : JSV
  headers : Obj
  query : Obj
  method : String
  isJson : Bool

/-- `createActionParametersFromRequest` (lines 554-567), as one object
literal: synthetic fields first, then the spread of `req.query`, then
`actionInputs`, then — for a JSON request — the spread of `req.body`;
`x-forwarded-for` is overridden inside the `__ow_headers` literal. -/
def createActionParametersFromRequest (req : Request) (actionInputs : Obj) :
    Obj :=
  objLit
    ([("__ow_body", req.body),
      ("__ow_headers", .obj (objLit
        (req.headers ++ [("x-forwarded-for", .str "127.0.0.1")]))),
      ("__ow_query", .obj (objLit req.query)),
      ("__ow_method", .str (jsToLower req.method))]
      ++ req.query ++ actionInputs
      ++ (if req.isJson then spreadFields req.body else []))

/-- What the router hands to `httpStatusResponse` (the HTTP boundary), or an
exception escaping the handler. -/
inductive ServeOutcome where
  | response (r : JSV)
  | uncaught

/-- `{statusCode: 404, body: {error: 'The requested resource does not
exist.'}}`. -/
def resourceNotFound : Obj :=
  objLit [("statusCode", .num 404),
    ("body", .obj (objLit [("error",
      .str "The requested resource does not exist.")]))]

/-- `serveWebAction` (lines 494-544). URL parsing models the JS
destructuring `[packageName, contextItemName, ...restofPath] =
url.split('/')`; a missing part is modelled by the empty string (JS yields
undefined, which misses every manifest lookup just as the empty string
does). The raw-web warning is log-only and has no modelled effect. The
result returned here is the `actionResponse` the source passes to
`httpStatusResponse`, which writes exactly its status, headers and body. -/
def serveWebAction (loader : Loader) (genId : Nat → String) (env : ProcEnv)
    (req : Request) (actionConfig : ActionConfig) : ServeOutcome × ProcEnv :=
  let parts := jsSplit req.urlParam '/'
  let packageName := (parts.get? 0).getD ""
  let contextItemName := (parts.get? 1).getD ""
  let restofPath := parts.drop 2
  let action? := lookupAction actionConfig packageName contextItemName
  let sequence? := lookupSequence actionConfig packageName contextItemName
  let owPath := jsJoin '/' restofPath
  let params0 := createActionParametersFromRequest req
    ((action?.map ActionDef.inputs).getD [])
  let contextItemParams := oset params0 "__ow_path" (.str owPath)
  match sequence? with
  | some s =>
    if !isWebAction (.seq s) then (.response (.obj resourceNotFound), env)
    else
      let r := invokeSequence loader genId actionConfig packageName (some s)
        contextItemParams env
      match r.1 with
      | .response v => (.response v, r.2.1)
      | .uncaught => (.uncaught, r.2.1)
  | none =>
    match action? with
    | some a =>
      if !isWebAction (.action a) then (.response (.obj resourceNotFound), env)
      else
        match invokeAction loader env (genId 0) a (some contextItemName)
          contextItemParams with
        | (.result r, env') => (.response (.obj r), env')
        | (.uncaught, env') => (.uncaught, env')
    | none => (.response (.obj resourceNotFound), env)

/-! ## Generic object lemmas -/

/-- JS-level observation of a field of a canonical object. -/
def getField (o : Obj) (key : String) : JSV :=
  (lookupField o key).getD .undefined

/-- The value of the last binding of `key` in an object-literal key/value
list, if any. -/
def lastBinding (kvs : List (String × JSV)) (key : String) : Option JSV :=
  (kvs.reverse.find? (fun kv => kv.1 = key)).map (fun kv => kv.2)

theorem lookupField_filter_ne (fs : Obj) (k key : String) (h : key ≠ k) :
    lookupField (fs.filter (fun kv => kv.1 ≠ k)) key = lookupField fs key := by
  induction fs with
  | nil => rfl
  | cons kv rest ih =>
    obtain ⟨k1, v1⟩ := kv
    by_cases hk : k1 = k
    · subst hk
      have hkey : ¬ (k1 = key) := fun hkey => h (Eq.symm hkey)
      simp [List.filter_cons, lookupField, hkey]
      simpa using ih
    · by_cases hkey : k1 = key
      · subst hkey
        simp [List.filter_cons, hk, lookupField]
      · simp [List.filter_cons, hk, lookupField, hkey]
        simpa using ih

theorem lookupField_filter_self (fs : Obj) (k : String) :
    lookupField (fs.filter (fun kv => kv.1 ≠ k)) k = none := by
  induction fs with
  | nil => rfl
  | cons kv rest ih =>
    obtain ⟨k1, v1⟩ := kv
    by_cases hk : k1 = k
    · subst hk
      simp [List.filter_cons]
      simpa using ih
    · simp [List.filter_cons, hk, lookupField]
      simpa using ih

theorem lookupField_osetKeep_self (fs : Obj) (k : String) (v : JSV) :
    lookupField (osetKeep fs k v) k = some v := by
  induction fs with
  | nil => simp [osetKeep, lookupField]
  | cons kv rest ih =>
    obtain ⟨k1, v1⟩ := kv
    by_cases hk : k1 = k
    · simp [osetKeep, hk, lookupField]
    · simp [osetKeep, hk, lookupField, ih]

theorem lookupField_osetKeep_ne (fs : Obj) (k key : String) (v : JSV)
    (h : key ≠ k) :
    lookupField (osetKeep fs k v) key = lookupField fs key := by
  induction fs with
  | nil =>
    simp [osetKeep, lookupField, show ¬ (k = key) from fun hkk => h (Eq.symm hkk)]
  | cons kv rest ih =>
    obtain ⟨k1, v1⟩ := kv
    by_cases hk : k1 = k
    · subst hk
      have hkey : ¬ (k1 = key) := fun hkey => h (Eq.symm hkey)
      simp [osetKeep, lookupField, hkey]
    · by_cases hkey : k1 = key
      · subst hkey
        simp [osetKeep, hk, lookupField]
      · simp [osetKeep, hk, lookupField, hkey, ih]

theorem lookupField_oset_self (fs : Obj) (k : String) (v : JSV) :
    lookupField (oset fs k v) k =
      if isUndefined v then none else some v := by
  cases v with
  | undefined =>
    simpa [oset, isUndefined] using lookupField_filter_self fs k
  | _ =>
    all_goals
      simpa [oset, isUndefined] using lookupField_osetKeep_self fs k _

theorem lookupField_oset_ne (fs : Obj) (k key : String) (v : JSV)
    (h : key ≠ k) :
    lookupField (oset fs k v) key = lookupField fs key := by
  cases v with
  | undefined => simpa [oset] using lookupField_filter_ne fs k key h
  | _ =>
    all_goals
      simpa [oset] using lookupField_osetKeep_ne fs k key _ h

theorem getField_oset_self (fs : Obj) (k : String) (v : JSV) :
    getField (oset fs k v) k = v := by
  rw [getField, lookupField_oset_self]
  cases v <;> simp [isUndefined]

theorem getField_oset_ne (fs : Obj) (k key : String) (v : JSV) (h : key ≠ k) :
    getField (oset fs k v) key = getField fs key := by
  rw [getField, lookupField_oset_ne fs k key v h, getField]

theorem objLit_append_single (kvs : List (String × JSV)) (kv : String × JSV) :
    objLit (kvs ++ [kv]) = oset (objLit kvs) kv.1 kv.2 := by
  simp [objLit, List.foldl_append]

theorem lastBinding_append_single (kvs : List (String × JSV))
    (k : String) (v : JSV) (key : String) :
    lastBinding (kvs ++ [(k, v)]) key =
      if k = key then some v else lastBinding kvs key := by
  by_cases hk : k = key <;> simp [lastBinding, List.reverse_append, List.find?,
    hk]

/-- Master lemma: observing a field of an object literal yields the value of
the last binding of that key in the literal (or undefined). -/
theorem getField_objLit (kvs : List (String × JSV)) (key : String) :
    getField (objLit kvs) key = (lastBinding kvs key).getD .undefined := by
  induction kvs using List.reverseRecOn with
  | nil => simp [objLit, lastBinding, getField, lookupField]
  | append_singleton kvs kv ih =>
    obtain ⟨k, v⟩ := kv
    rw [objLit_append_single, lastBinding_append_single]
    by_cases hk : k = key
    · subst hk
      simp [getField_oset_self]
    · rw [getField_oset_ne _ _ _ _ (fun hkk => hk hkk.symm), ih]
      simp [hk]

theorem lastBinding_eq_none (fields : Obj) (key : String)
    (h : ∀ kv ∈ fields, kv.1 ≠ key) : lastBinding fields key = none := by
  have hfind : fields.reverse.find? (fun kv => kv.1 = key) = none := by
    rw [List.find?_eq_none]
    intro kv hkv
    simp [h kv (List.mem_reverse.mp hkv)]
  simp [lastBinding, hfind]

theorem lastBinding_append (xs ys : Obj) (key : String) :
    lastBinding (xs ++ ys) key =
      match lastBinding ys key with
      | some v => some v
      | none => lastBinding xs key := by
  simp only [lastBinding, List.reverse_append, List.find?_append]
  cases hy : ys.reverse.find? (fun kv => decide (kv.1 = key)) <;>
    simp [Option.or, hy]

/-- Every real JS object binds each key at most once. -/
def nodupKeys (fields : Obj) : Prop := (fields.map Prod.fst).Nodup

theorem lastBinding_eq_lookupField (fields : Obj) (key : String)
    (h : nodupKeys fields) : lastBinding fields key = lookupField fields key := by
  induction fields with
  | nil => rfl
  | cons kv rest ih =>
    obtain ⟨k1, v1⟩ := kv
    have hpair : nodupKeys rest ∧ k1 ∉ rest.map Prod.fst := by
      have hcons := h
      simp only [nodupKeys, List.map_cons, List.nodup_cons] at hcons
      exact ⟨hcons.2, hcons.1⟩
    have hsplit : ((k1, v1) :: rest : Obj) = [(k1, v1)] ++ rest := rfl
    rw [hsplit, lastBinding_append]
    by_cases hk : k1 = key
    · subst hk
      have hnone : lastBinding rest k1 = none := by
        apply lastBinding_eq_none
        intro kv hkv hkk
        exact hpair.2 (hkk ▸ List.mem_map_of_mem Prod.fst hkv)
      rw [hnone]
      simp [lastBinding, List.find?, lookupField]
    · rw [ih hpair.1]
      cases hlk : lookupField rest key with
      | some w => simp [lookupField, hk, hlk]
      | none => simp [lookupField, hk, hlk, lastBinding, List.find?,
          show ¬ (k1 = key) from hk]

/-! ## Invoker helper lemmas -/

/-- The normalized result always carries the extracted status under
`statusCode`. -/
theorem getField_normalizeResponse_statusCode (r : JSV) :
    getField (normalizeResponse r) "statusCode" = responseStatus r := by
  rw [normalizeResponse, getField_objLit, lastBinding_append]
  simp [lastBinding, List.find?]

/-- The normalized result always carries the extracted body under `body`. -/
theorem getField_normalizeResponse_body (r : JSV) :
    getField (normalizeResponse r) "body" = responseBody r := by
  rw [normalizeResponse, getField_objLit, lastBinding_append]
  simp [lastBinding, List.find?]

/-- The normalized result always carries `response.headers` under
`headers`. -/
theorem getField_normalizeResponse_headers (r : JSV) :
    getField (normalizeResponse r) "headers" = responseHeaders r := by
  rw [normalizeResponse, getField_objLit, lastBinding_append]
  simp [lastBinding, List.find?]

/-- Any other field of the normalized result comes from the spread of the
response, and only when the response is a non-array object and the status
is not an error. -/
theorem getField_normalizeResponse_extra (r : JSV) (key : String)
    (h1 : key ≠ "headers") (h2 : key ≠ "statusCode") (h3 : key ≠ "body") :
    getField (normalizeResponse r) key =
      if (typeofIsObject r && !isArray r) &&
          !isErrorStatus (responseStatus r) then
        (lastBinding (spreadFields r) key).getD .undefined
      else .undefined := by
  rw [normalizeResponse, getField_objLit, lastBinding_append]
  have hnone : lastBinding
      [("headers", responseHeaders r), ("statusCode", responseStatus r),
       ("body", responseBody r)] key = none := by
    apply lastBinding_eq_none
    intro kv hkv
    simp only [List.mem_cons, List.not_mem_nil, or_false] at hkv
    rcases hkv with h | h | h
    · rw [h]; exact fun hk => h1 (Eq.symm hk)
    · rw [h]; exact fun hk => h2 (Eq.symm hk)
    · rw [h]; exact fun hk => h3 (Eq.symm hk)
  rw [hnone]
  by_cases hcond : ((typeofIsObject r && !isArray r) &&
      !isErrorStatus (responseStatus r)) = true
  · simp [hcond]
  · rw [Bool.not_eq_true] at hcond
    simp [hcond, lastBinding]

/-- When the auth gate rejects, `invokeAction` returns its 401 result at
once, leaving the environment untouched. -/
theorem invokeAction_of_authGate_some (loader : Loader) (env : ProcEnv)
    (newActivationId : String) (action : ActionDef)
    (actionName : Option String) (params : Obj) (r : Obj)
    (h : authGate action params = some r) :
    invokeAction loader env newActivationId action actionName params =
      (.result r, env) := by
  simp [invokeAction, h]

/-! ## Claims -/

/-- Claim C4: an action whose annotations do not request authentication
passes the auth gate unconditionally; an action that does request it has the
context's header mapping lower-cased and inspected for authorization, then
x-gw-ims-org-id, in that order, returning on the first missing (falsy) one
the exact 401 result naming that header — without ever consulting the module
loader, i.e. without executing the action's code — and passing when both are
present. -/
theorem claim_C4_auth_gatekeeper :
    (∀ (action : ActionDef) (params : Obj),
      truthy ((lookupField action.annotations "require-adobe-auth").getD
        .undefined) = false →
      authGate action params = none)
    ∧ (∀ (action : ActionDef) (params : Obj),
        truthy ((lookupField action.annotations "require-adobe-auth").getD
          .undefined) = true →
        (truthy (getField (lowercaseHeaders (headerFields params))
            "authorization") = false →
          authGate action params = some [("statusCode", .num 401),
            ("body", .obj [("error", .str
              "cannot authorize request, reason: missing authorization header")])])
        ∧ (truthy (getField (lowercaseHeaders (headerFields params))
            "authorization") = true →
          truthy (getField (lowercaseHeaders (headerFields params))
            "x-gw-ims-org-id") = false →
          authGate action params = some [("statusCode", .num 401),
            ("body", .obj [("error", .str
              "cannot authorize request, reason: missing x-gw-ims-org-id header")])])
        ∧ (truthy (getField (lowercaseHeaders (headerFields params))
            "authorization") = true →
          truthy (getField (lowercaseHeaders (headerFields params))
            "x-gw-ims-org-id") = true →
          authGate action params = none))
    ∧ (∀ (loader : Loader) (env : ProcEnv) (newActivationId : String)
        (action : ActionDef) (actionName : Option String) (params : Obj)
        (r : Obj), authGate action params = some r →
        invokeAction loader env newActivationId action actionName params =
          (.result r, env)) := by
  refine ⟨?_, ?_, ?_⟩
  · intro action params h
    simp [authGate, h]
  · intro action params h
    refine ⟨?_, ?_, ?_⟩
    · intro hauth
      simp only [getField] at hauth
      simp [authGate, h, missingAuthHeader, requiredAuthHeaders, List.find?,
        hauth, authErrorResult, objLit, oset, osetKeep]
    · intro hauth horg
      simp only [getField] at hauth horg
      simp [authGate, h, missingAuthHeader, requiredAuthHeaders, List.find?,
        hauth, horg, authErrorResult, objLit, oset, osetKeep]
    · intro hauth horg
      simp only [getField] at hauth horg
      simp [authGate, h, missingAuthHeader, requiredAuthHeaders, List.find?,
        hauth, horg]
  · intro loader env newActivationId action actionName params r h
    exact invokeAction_of_authGate_some loader env newActivationId action
      actionName params r h

/-- Claim C2: an invocation that executes the action normalizes the returned
value r so that: an absent (falsy) r yields exactly {statusCode: 204, body:
''}; otherwise (no error field) the result's statusCode is r.statusCode ||
200, its body r.body || '', its headers r.headers; when the resolved status
is < 400 and r is a non-array object all of r's own top-level fields are
merged into the result under the extracted ones, and on an error status no
extra field is merged. -/
theorem claim_C2_result_normalization :
    (∀ (loader : Loader) (env : ProcEnv) (newActivationId : String)
      (action : ActionDef) (actionName : Option String) (params : Obj)
      (mainFn : ActionFn) (r : JSV),
      authGate action params = none →
      loader action.function = .loadedMain mainFn →
      mainFn params ⟨some newActivationId, some (envVarString actionName)⟩ =
        .returned r →
      (invokeAction loader env newActivationId action actionName params).1 =
        .result (normalizeResponse r))
    ∧ (∀ r : JSV, truthy r = false →
        normalizeResponse r = [("statusCode", .num 204), ("body", .str "")])
    ∧ (∀ r : JSV, truthy r = true → truthy (JSV.get r "error") = false →
        getField (normalizeResponse r) "statusCode" =
          (if truthy (JSV.get r "statusCode") then JSV.get r "statusCode"
           else .num 200)
        ∧ getField (normalizeResponse r) "body" =
          (if truthy (JSV.get r "body") then JSV.get r "body" else .str "")
        ∧ getField (normalizeResponse r) "headers" = JSV.get r "headers")
    ∧ (∀ (fields : Obj) (key : String), nodupKeys fields →
        isErrorStatus (getField (normalizeResponse (.obj fields))
          "statusCode") = false →
        key ≠ "headers" → key ≠ "statusCode" → key ≠ "body" →
        getField (normalizeResponse (.obj fields)) key =
          JSV.get (.obj fields) key)
    ∧ (∀ (r : JSV) (key : String),
        isErrorStatus (getField (normalizeResponse r) "statusCode") = true →
        key ≠ "headers" → key ≠ "statusCode" → key ≠ "body" →
        getField (normalizeResponse r) key = .undefined) := by
  refine ⟨?_, ?_, ?_, ?_, ?_⟩
  · intro loader env newActivationId action actionName params mainFn r hauth
      hload hrun
    obtain ⟨aid, aname⟩ := env
    simp only [invokeAction, hauth, hload]
    rw [hrun]
  · intro r h
    cases r <;> simp_all [normalizeResponse, responseStatus, responseBody,
      responseHeaders, truthy, objLit, oset, osetKeep, spreadFields,
      typeofIsObject, isArray, isErrorStatus, toNumber, JSV.get]
  · intro r h herr
    refine ⟨?_, ?_, ?_⟩
    · rw [getField_normalizeResponse_statusCode]
      simp [responseStatus, h, herr]
    · rw [getField_normalizeResponse_body]
      simp [responseBody, h, herr]
    · rw [getField_normalizeResponse_headers]
      simp [responseHeaders, h]
  · intro fields key hnodup hstat hk1 hk2 hk3
    rw [getField_normalizeResponse_statusCode] at hstat
    rw [getField_normalizeResponse_extra _ _ hk1 hk2 hk3]
    simp only [typeofIsObject, isArray, hstat, Bool.not_false, Bool.and_true,
      Bool.true_and, if_true, spreadFields]
    rw [lastBinding_eq_lookupField _ _ hnodup]
    rfl
  · intro r key hstat hk1 hk2 hk3
    rw [getField_normalizeResponse_statusCode] at hstat
    rw [getField_normalizeResponse_extra _ _ hk1 hk2 hk3]
    simp [hstat]

/-- Witness for C2 at concrete inputs: a loader/action whose main returns
{statusCode: 200, body: 'hi', extra: 5} produces the normalized result with
the extra field merged; evaluating the conjuncts at this value and at an
undefined return value. -/
theorem claim_C2_result_normalization_witness :
    (invokeAction (fun _ => .loadedMain (fun _ _ => .returned
        (.obj [("statusCode", .num 200), ("body", .str "hi"),
          ("extra", .num 5)])))
      ⟨none, none⟩ "aid" ⟨"/a.js", [], [], .bool true⟩ (some "a") []).1 =
      .result (normalizeResponse (.obj [("statusCode", .num 200),
        ("body", .str "hi"), ("extra", .num 5)]))
    ∧ normalizeResponse .undefined = [("statusCode", .num 204), ("body", .str "")]
    ∧ getField (normalizeResponse (.obj [("statusCode", .num 200),
        ("body", .str "hi"), ("extra", .num 5)])) "statusCode" = .num 200
    ∧ getField (normalizeResponse (.obj [("statusCode", .num 200),
        ("body", .str "hi"), ("extra", .num 5)])) "extra" = .num 5
    ∧ getField (normalizeResponse (.obj [("statusCode", .num 500),
        ("extra", .num 5)])) "extra" = .undefined := by
  refine ⟨?_, ?_, ?_, ?_, ?_⟩
  · exact claim_C2_result_normalization.1 _ _ _ _ _ _ _ _ (by rfl) (by rfl)
      (by rfl)
  · exact claim_C2_result_normalization.2.1 .undefined (by rfl)
  · have h := (claim_C2_result_normalization.2.2.1
      (.obj [("statusCode", .num 200), ("body", .str "hi"),
        ("extra", .num 5)]) (by rfl) (by rfl)).1
    rw [h]; rfl
  · have h := claim_C2_result_normalization.2.2.2.1
      [("statusCode", .num 200), ("body", .str "hi"), ("extra", .num 5)]
      "extra" (by simp [nodupKeys]) (by rfl)
      (by simp) (by simp) (by simp)
    rw [h]; rfl
  · exact claim_C2_result_normalization.2.2.2.2
      (.obj [("statusCode", .num 500), ("extra", .num 5)]) "extra" (by rfl)
      (by simp) (by simp) (by simp)

/-- Counterexample to C3 as stated: for the returned value
r = {error: {statusCode: 200, body: 'ok'}, marker: 7} — which has an error
field — the invoker takes status/body from r.error, but the resulting status
resolves to 200 (< 400), so the spread still happens and r's other field
`marker` is NOT discarded: it appears in the result with value 7. -/
theorem claim_C3_counterexample :
    truthy (JSV.get (.obj [("error", .obj [("statusCode", .num 200),
      ("body", .str "ok")]), ("marker", .num 7)]) "error") = true
    ∧ (invokeAction
        (fun _ => .loadedMain (fun _ _ => .returned
          (.obj [("error", .obj [("statusCode", .num 200),
            ("body", .str "ok")]), ("marker", .num 7)])))
        ⟨none, none⟩ "aid" ⟨"/a.js", [], [], .bool true⟩ (some "a") []).1 =
      .result (normalizeResponse (.obj [("error", .obj [("statusCode",
        .num 200), ("body", .str "ok")]), ("marker", .num 7)]))
    ∧ getField (normalizeResponse (.obj [("error", .obj [("statusCode",
        .num 200), ("body", .str "ok")]), ("marker", .num 7)]))
        "statusCode" = .num 200
    ∧ getField (normalizeResponse (.obj [("error", .obj [("statusCode",
        .num 200), ("body", .str "ok")]), ("marker", .num 7)])) "marker" =
      .num 7 := by
  exact ⟨rfl, rfl, rfl, rfl⟩

/-- Claim C3 (amended): when r has a truthy error field the result's status
is r.error.statusCode || 200 and its body r.error.body || ''; the result's
headers still come from r.headers; and the other fields of r are discarded
only when the resolved status is an error (>= 400) — when it resolves below
400, all of r's own top-level fields (error included) are merged into the
result exactly as in the normal case. -/
theorem claim_C3_error_field_amended :
    (∀ r : JSV, truthy r = true → truthy (JSV.get r "error") = true →
      getField (normalizeResponse r) "statusCode" =
        (if truthy (JSV.get (JSV.get r "error") "statusCode") then
          JSV.get (JSV.get r "error") "statusCode"
         else .num 200)
      ∧ getField (normalizeResponse r) "body" =
        (if truthy (JSV.get (JSV.get r "error") "body") then
          JSV.get (JSV.get r "error") "body"
         else .str "")
      ∧ getField (normalizeResponse r) "headers" = JSV.get r "headers")
    ∧ (∀ (r : JSV) (key : String),
        isErrorStatus (getField (normalizeResponse r) "statusCode") = true →
        key ≠ "headers" → key ≠ "statusCode" → key ≠ "body" →
        getField (normalizeResponse r) key = .undefined)
    ∧ (∀ (fields : Obj) (key : String), nodupKeys fields →
        isErrorStatus (getField (normalizeResponse (.obj fields))
          "statusCode") = false →
        key ≠ "headers" → key ≠ "statusCode" → key ≠ "body" →
        getField (normalizeResponse (.obj fields)) key =
          JSV.get (.obj fields) key) := by
  refine ⟨?_, ?_, ?_⟩
  · intro r h herr
    refine ⟨?_, ?_, ?_⟩
    · rw [getField_normalizeResponse_statusCode]
      simp [responseStatus, h, herr]
    · rw [getField_normalizeResponse_body]
      simp [responseBody, h, herr]
    · rw [getField_normalizeResponse_headers]
      simp [responseHeaders, h]
  · intro r key hstat hk1 hk2 hk3
    rw [getField_normalizeResponse_statusCode] at hstat
    rw [getField_normalizeResponse_extra _ _ hk1 hk2 hk3]
    simp [hstat]
  · intro fields key hnodup hstat hk1 hk2 hk3
    rw [getField_normalizeResponse_statusCode] at hstat
    rw [getField_normalizeResponse_extra _ _ hk1 hk2 hk3]
    simp only [typeofIsObject, isArray, hstat, Bool.not_false, Bool.and_true,
      Bool.true_and, if_true, spreadFields]
    rw [lastBinding_eq_lookupField _ _ hnodup]
    rfl

/-- Witness for the amended C3 at concrete inputs: with
r = {error: {statusCode: 403, body: 'b'}, headers: {h: 'v'}, marker: 1} the
status/body come from r.error, headers from r.headers, and marker is
dropped; with error.statusCode 200 the marker survives. -/
theorem claim_C3_error_field_amended_witness :
    getField (normalizeResponse (.obj [("error", .obj [("statusCode",
      .num 403), ("body", .str "b")]), ("headers", .obj [("h", .str "v")]),
      ("marker", .num 1)])) "statusCode" = .num 403
    ∧ getField (normalizeResponse (.obj [("error", .obj [("statusCode",
        .num 403), ("body", .str "b")]), ("headers", .obj [("h", .str "v")]),
        ("marker", .num 1)])) "headers" = .obj [("h", .str "v")]
    ∧ getField (normalizeResponse (.obj [("error", .obj [("statusCode",
        .num 403), ("body", .str "b")]), ("headers", .obj [("h", .str "v")]),
        ("marker", .num 1)])) "marker" = .undefined
    ∧ getField (normalizeResponse (.obj [("error", .obj [("statusCode",
        .num 200), ("body", .str "b")]), ("marker", .num 1)])) "marker" =
      .num 1 := by
  refine ⟨?_, ?_, ?_, ?_⟩
  · have h := (claim_C3_error_field_amended.1 (.obj [("error", .obj
      [("statusCode", .num 403), ("body", .str "b")]), ("headers", .obj
      [("h", .str "v")]), ("marker", .num 1)]) (by rfl) (by rfl)).1
    rw [h]; rfl
  · have h := (claim_C3_error_field_amended.1 (.obj [("error", .obj
      [("statusCode", .num 403), ("body", .str "b")]), ("headers", .obj
      [("h", .str "v")]), ("marker", .num 1)]) (by rfl) (by rfl)).2.2
    rw [h]; rfl
  · exact claim_C3_error_field_amended.2.1 (.obj [("error", .obj
      [("statusCode", .num 403), ("body", .str "b")]), ("headers", .obj
      [("h", .str "v")]), ("marker", .num 1)]) "marker" (by rfl) (by simp)
      (by simp) (by simp)
  · have h := claim_C3_error_field_amended.2.2 [("error", .obj
      [("statusCode", .num 200), ("body", .str "b")]), ("marker", .num 1)]
      "marker" (by simp [nodupKeys]) (by rfl) (by simp) (by simp) (by simp)
    rw [h]; rfl

/-- Counterexample to C6 as stated: when the entry point cannot be loaded
(`require` throws — the loader reports a load failure), `invokeAction` does
NOT return the 400 InvalidResponse result: the `require` call sits outside
its try/catch, so the exception escapes the invoker uncaught instead of
being converted. -/
theorem claim_C6_counterexample :
    (invokeAction (fun _ => .loadFailure) ⟨none, none⟩ "aid"
      ⟨"/a.js", [], [], .bool true⟩ (some "a") []).1 = .uncaught
    ∧ (invokeAction (fun _ => .loadFailure) ⟨none, none⟩ "aid"
        ⟨"/a.js", [], [], .bool true⟩ (some "a") []).1 ≠
      .result [("statusCode", .num 400), ("body", .obj [("error", .str
        "Response is not valid \x27message/http\x27.")])] := by
  refine ⟨rfl, ?_⟩
  intro h
  rw [show (invokeAction (fun _ => .loadFailure) ⟨none, none⟩ "aid"
    ⟨"/a.js", [], [], .bool true⟩ (some "a") []).1 = .uncaught from rfl] at h
  cases h

/-- Claim C6 (amended): when the module loads but exports no truthy main,
or when the main throws during execution, invokeAction returns exactly
{statusCode: 400, body: {error: "Response is not valid 'message/http'."}}
and no exception propagates; but when the module load itself throws (entry
point cannot be loaded), the exception escapes invokeAction uncaught. -/
theorem claim_C6_invalid_response_amended :
    (∀ (loader : Loader) (env : ProcEnv) (newActivationId : String)
      (action : ActionDef) (actionName : Option String) (params : Obj),
      authGate action params = none →
      loader action.function = .loadedNoMain →
      (invokeAction loader env newActivationId action actionName params).1 =
        .result [("statusCode", .num 400), ("body", .obj [("error", .str
          "Response is not valid \x27message/http\x27.")])])
    ∧ (∀ (loader : Loader) (env : ProcEnv) (newActivationId : String)
        (action : ActionDef) (actionName : Option String) (params : Obj)
        (mainFn : ActionFn),
        authGate action params = none →
        loader action.function = .loadedMain mainFn →
        mainFn params ⟨some newActivationId,
          some (envVarString actionName)⟩ = .thrown →
        (invokeAction loader env newActivationId action actionName
          params).1 =
          .result [("statusCode", .num 400), ("body", .obj [("error", .str
            "Response is not valid \x27message/http\x27.")])])
    ∧ (∀ (loader : Loader) (env : ProcEnv) (newActivationId : String)
        (action : ActionDef) (actionName : Option String) (params : Obj),
        authGate action params = none →
        loader action.function = .loadFailure →
        (invokeAction loader env newActivationId action actionName
          params).1 = .uncaught) := by
  refine ⟨?_, ?_, ?_⟩
  · intro loader env newActivationId action actionName params hauth hload
    obtain ⟨aid, aname⟩ := env
    simp only [invokeAction, hauth, hload]
    rfl
  · intro loader env newActivationId action actionName params mainFn hauth
      hload hrun
    obtain ⟨aid, aname⟩ := env
    simp only [invokeAction, hauth, hload]
    rw [hrun]
    rfl
  · intro loader env newActivationId action actionName params hauth hload
    obtain ⟨aid, aname⟩ := env
    simp only [invokeAction, hauth, hload]

/-- Witness for the amended C6 at concrete inputs: a module without a main
export, a main that throws, and a failing load. -/
theorem claim_C6_invalid_response_amended_witness :
    (invokeAction (fun _ => .loadedNoMain) ⟨none, none⟩ "aid"
      ⟨"/a.js", [], [], .bool true⟩ (some "a") []).1 =
      .result [("statusCode", .num 400), ("body", .obj [("error", .str
        "Response is not valid \x27message/http\x27.")])]
    ∧ (invokeAction (fun _ => .loadedMain (fun _ _ => .thrown)) ⟨none, none⟩
        "aid" ⟨"/a.js", [], [], .bool true⟩ (some "a") []).1 =
      .result [("statusCode", .num 400), ("body", .obj [("error", .str
        "Response is not valid \x27message/http\x27.")])]
    ∧ (invokeAction (fun _ => .loadFailure) ⟨none, none⟩ "aid2"
        ⟨"/a.js", [], [], .bool true⟩ (some "a") []).1 = .uncaught := by
  refine ⟨?_, ?_, ?_⟩
  · exact claim_C6_invalid_response_amended.1 _ _ _ _ _ _ (by rfl) (by rfl)
  · exact claim_C6_invalid_response_amended.2.1 _ _ _ _ _ _ _ (by rfl)
      (by rfl) (by rfl)
  · exact claim_C6_invalid_response_amended.2.2 _ _ _ _ _ _ (by rfl) (by rfl)

/-- Counterexample to C9 as stated: the markers are NOT cleared after the
call completes. After a normal (successful) completion the activation id
marker still holds the generated id; and after a main that throws, the
action name marker is still set. -/
theorem claim_C9_counterexample :
    ((invokeAction (fun _ => .loadedMain (fun _ _ => .returned .undefined))
      ⟨none, none⟩ "abc" ⟨"/a.js", [], [], .bool true⟩ (some "a") []).2
      ).owActivationId = some "abc"
    ∧ ((invokeAction (fun _ => .loadedMain (fun _ _ => .thrown))
        ⟨none, none⟩ "abc" ⟨"/a.js", [], [], .bool true⟩ (some "a") []).2
        ).owActionName = some "a" := by
  exact ⟨rfl, rfl⟩

/-- Claim C9 (amended): on an auth rejection neither marker is touched;
otherwise the activation id marker is set to the fresh id and remains set
after the call (it is never cleared, only overwritten by the next
invocation); the main function runs with both markers set (the duration of
the call); the action name marker is cleared on normal completion but stays
set after a thrown exception; and the pre-call marker values never reach
the returned result, which is the same for any starting environment. -/
theorem claim_C9_markers_amended :
    (∀ (loader : Loader) (env : ProcEnv) (newActivationId : String)
      (action : ActionDef) (actionName : Option String) (params : Obj)
      (r : Obj), authGate action params = some r →
      invokeAction loader env newActivationId action actionName params =
        (.result r, env))
    ∧ (∀ (loader : Loader) (env : ProcEnv) (newActivationId : String)
        (action : ActionDef) (actionName : Option String) (params : Obj),
        authGate action params = none →
        ((invokeAction loader env newActivationId action actionName
          params).2).owActivationId = some newActivationId)
    ∧ (∀ (env : ProcEnv) (newActivationId : String) (action : ActionDef)
        (actionName : Option String) (params : Obj) (f : ActionFn),
        authGate action params = none →
        (invokeAction (fun _ => .loadedMain f) env newActivationId action
          actionName params).1 =
          match f params ⟨some newActivationId,
            some (envVarString actionName)⟩ with
          | .thrown => .result (objLit [("statusCode", .num 400),
              ("body", invalidResponseBody)])
          | .returned r => .result (normalizeResponse r))
    ∧ (∀ (loader : Loader) (env : ProcEnv) (newActivationId : String)
        (action : ActionDef) (actionName : Option String) (params : Obj)
        (mainFn : ActionFn) (r : JSV),
        authGate action params = none →
        loader action.function = .loadedMain mainFn →
        mainFn params ⟨some newActivationId,
          some (envVarString actionName)⟩ = .returned r →
        ((invokeAction loader env newActivationId action actionName
          params).2).owActionName = none)
    ∧ (∀ (loader : Loader) (env : ProcEnv) (newActivationId : String)
        (action : ActionDef) (actionName : Option String) (params : Obj)
        (mainFn : ActionFn),
        authGate action params = none →
        loader action.function = .loadedMain mainFn →
        mainFn params ⟨some newActivationId,
          some (envVarString actionName)⟩ = .thrown →
        ((invokeAction loader env newActivationId action actionName
          params).2).owActionName = some (envVarString actionName))
    ∧ (∀ (loader : Loader) (env1 env2 : ProcEnv) (newActivationId : String)
        (action : ActionDef) (actionName : Option String) (params : Obj),
        (invokeAction loader env1 newActivationId action actionName
          params).1 =
        (invokeAction loader env2 newActivationId action actionName
          params).1) := by
  refine ⟨?_, ?_, ?_, ?_, ?_, ?_⟩
  · intro loader env newActivationId action actionName params r h
    exact invokeAction_of_authGate_some loader env newActivationId action
      actionName params r h
  · intro loader env newActivationId action actionName params hauth
    obtain ⟨aid, aname⟩ := env
    simp only [invokeAction, hauth]
    cases loader action.function with
    | loadFailure => rfl
    | loadedNoMain => rfl
    | loadedMain mainFn =>
      simp only []
      cases mainFn params ⟨some newActivationId,
        some (envVarString actionName)⟩ <;> rfl
  · intro env newActivationId action actionName params f hauth
    obtain ⟨aid, aname⟩ := env
    simp only [invokeAction, hauth]
    cases f params ⟨some newActivationId, some (envVarString actionName)⟩ <;>
      rfl
  · intro loader env newActivationId action actionName params mainFn r hauth
      hload hrun
    obtain ⟨aid, aname⟩ := env
    simp only [invokeAction, hauth, hload]
    rw [hrun]
  · intro loader env newActivationId action actionName params mainFn hauth
      hload hrun
    obtain ⟨aid, aname⟩ := env
    simp only [invokeAction, hauth, hload]
    rw [hrun]
  · intro loader env1 env2 newActivationId action actionName params
    obtain ⟨a1, n1⟩ := env1
    obtain ⟨a2, n2⟩ := env2
    cases hauth : authGate action params with
    | some r => simp [invokeAction, hauth]
    | none =>
      simp only [invokeAction, hauth]
      cases loader action.function with
      | loadFailure => rfl
      | loadedNoMain => rfl
      | loadedMain mainFn => rfl

/-- Witness for the amended C9 at concrete inputs: after an auth rejection
the environment is untouched; after a successful run the activation id
stays and the action name is cleared; after a throw the name stays; the
result is independent of the starting environment. -/
theorem claim_C9_markers_amended_witness :
    invokeAction (fun _ => .loadFailure) ⟨some "old", some "oldname"⟩ "new"
      ⟨"/a.js", [], [("require-adobe-auth", .bool true)], .undefined⟩ none [] =
      (.result [("statusCode", .num 401), ("body", .obj [("error", .str
        "cannot authorize request, reason: missing authorization header")])],
        ⟨some "old", some "oldname"⟩)
    ∧ ((invokeAction (fun _ => .loadedMain (fun _ _ => .returned .undefined))
        ⟨none, some "stale"⟩ "abc" ⟨"/a.js", [], [], .bool true⟩ (some "a")
        []).2) = ⟨some "abc", none⟩
    ∧ ((invokeAction (fun _ => .loadedMain (fun _ _ => .thrown))
        ⟨none, none⟩ "abc" ⟨"/a.js", [], [], .bool true⟩ (some "a") []).2) =
      ⟨some "abc", some "a"⟩
    ∧ (invokeAction (fun _ => .loadedMain (fun _ _ => .returned .undefined))
        ⟨some "x", some "y"⟩ "abc" ⟨"/a.js", [], [], .bool true⟩ (some "a")
        []).1 =
      (invokeAction (fun _ => .loadedMain (fun _ _ => .returned .undefined))
        ⟨none, none⟩ "abc" ⟨"/a.js", [], [], .bool true⟩ (some "a") []).1 := by
  refine ⟨?_, ?_, ?_, ?_⟩
  · exact claim_C9_markers_amended.1 _ _ _ _ _ _ _ (by rfl)
  · have h1 := claim_C9_markers_amended.2.1
      (fun _ => .loadedMain (fun _ _ => .returned .undefined))
      ⟨none, some "stale"⟩ "abc" ⟨"/a.js", [], [], .bool true⟩ (some "a") []
      (by rfl)
    have h2 := claim_C9_markers_amended.2.2.2.1
      (fun _ => .loadedMain (fun _ _ => .returned .undefined))
      ⟨none, some "stale"⟩ "abc" ⟨"/a.js", [], [], .bool true⟩ (some "a") []
      (fun _ _ => .returned .undefined) .undefined (by rfl) (by rfl) (by rfl)
    cases henv : (invokeAction (fun _ => .loadedMain
      (fun _ _ => .returned .undefined)) ⟨none, some "stale"⟩ "abc"
      ⟨"/a.js", [], [], .bool true⟩ (some "a") []).2 with
    | mk a n =>
      rw [henv] at h1 h2
      simp only at h1 h2
      rw [h1, h2]
  · have h1 := claim_C9_markers_amended.2.1
      (fun _ => .loadedMain (fun _ _ => .thrown)) ⟨none, none⟩ "abc"
      ⟨"/a.js", [], [], .bool true⟩ (some "a") [] (by rfl)
    have h2 := claim_C9_markers_amended.2.2.2.2.1
      (fun _ => .loadedMain (fun _ _ => .thrown)) ⟨none, none⟩ "abc"
      ⟨"/a.js", [], [], .bool true⟩ (some "a") [] (fun _ _ => .thrown)
      (by rfl) (by rfl) (by rfl)
    cases henv : (invokeAction (fun _ => .loadedMain (fun _ _ => .thrown))
      ⟨none, none⟩ "abc" ⟨"/a.js", [], [], .bool true⟩ (some "a") []).2 with
    | mk a n =>
      rw [henv] at h1 h2
      simp only at h1 h2
      rw [h1, h2]
      rfl
  · exact claim_C9_markers_amended.2.2.2.2.2
      (fun _ => .loadedMain (fun _ _ => .returned .undefined))
      ⟨some "x", some "y"⟩ ⟨none, none⟩ "abc" ⟨"/a.js", [], [], .bool true⟩
      (some "a") []

/-- Claim C5: when the sequence loop reaches an element whose trimmed name
does not resolve to an action of the package, it stops there and the whole
remaining run returns exactly {statusCode: 400, body: {error: 'Sequence
component does not exist.'}} with no further invocation (empty remaining
trace, untouched environment, for every loader); consequently a full run
whose earlier elements all resolve and succeed (non-error results) ends with
exactly that result, having invoked exactly the actions before the missing
one. -/
theorem claim_C5_sequence_missing_component :
    (∀ (loader : Loader) (genId : Nat → String) (cfg : ActionConfig)
      (packageName : String) (sequenceParams : Obj) (elem : String)
      (rest : List String) (i : Nat) (env : ProcEnv) (last : JSV),
      lookupAction cfg packageName (jsTrim elem) = none →
      invokeSequenceAux loader genId cfg packageName sequenceParams
        (elem :: rest) i env last =
        (.response (.obj [("statusCode", .num 400), ("body", .obj [("error",
          .str "Sequence component does not exist.")])]), env, []))
    ∧ (∀ (loader : Loader) (genId : Nat → String) (cfg : ActionConfig)
        (packageName : String) (sequenceParams : Obj) (pre : List String)
        (elem : String) (rest : List String) (i : Nat) (env : ProcEnv)
        (last : JSV),
        (∀ e ∈ pre, ∃ a, lookupAction cfg packageName (jsTrim e) = some a ∧
          ∀ (i2 : Nat) (env2 : ProcEnv) (params : Obj),
            ∃ (r : Obj) (env3 : ProcEnv),
              invokeAction loader env2 (genId i2) a none params =
                (.result r, env3) ∧
              isErrorStatus (getField r "statusCode") = false) →
        lookupAction cfg packageName (jsTrim elem) = none →
        (invokeSequenceAux loader genId cfg packageName sequenceParams
          (pre ++ elem :: rest) i env last).1 =
          .response (.obj [("statusCode", .num 400), ("body", .obj [("error",
            .str "Sequence component does not exist.")])])
        ∧ ((invokeSequenceAux loader genId cfg packageName sequenceParams
            (pre ++ elem :: rest) i env last).2.2).map StepRecord.name =
          pre.map jsTrim) := by
  have hstop : ∀ (loader : Loader) (genId : Nat → String) (cfg : ActionConfig)
      (packageName : String) (sequenceParams : Obj) (elem : String)
      (rest : List String) (i : Nat) (env : ProcEnv) (last : JSV),
      lookupAction cfg packageName (jsTrim elem) = none →
      invokeSequenceAux loader genId cfg packageName sequenceParams
        (elem :: rest) i env last =
        (.response (.obj [("statusCode", .num 400), ("body", .obj [("error",
          .str "Sequence component does not exist.")])]), env, []) := by
    intro loader genId cfg packageName sequenceParams elem rest i env last h
    simp only [invokeSequenceAux, h]
    rfl
  refine ⟨hstop, ?_⟩
  intro loader genId cfg packageName sequenceParams pre
  induction pre with
  | nil =>
    intro elem rest i env last _ hmiss
    rw [List.nil_append,
      hstop loader genId cfg packageName sequenceParams elem rest i env last
        hmiss]
    exact ⟨rfl, rfl⟩
  | cons p pre2 ih =>
    intro elem rest i env last hpre hmiss
    obtain ⟨a, ha, hinv⟩ := hpre p (List.mem_cons_self p pre2)
    have hpre2 : ∀ e ∈ pre2, ∃ a2,
        lookupAction cfg packageName (jsTrim e) = some a2 ∧
        ∀ (i2 : Nat) (env2 : ProcEnv) (params : Obj),
          ∃ (r : Obj) (env3 : ProcEnv),
            invokeAction loader env2 (genId i2) a2 none params =
              (.result r, env3) ∧
            isErrorStatus (getField r "statusCode") = false :=
      fun e he => hpre e (List.mem_cons_of_mem p he)
    obtain ⟨r, env3, hr, herr⟩ := hinv i env
      (if i = 0 then sequenceParams
       else seqStepParams sequenceParams a.inputs last)
    simp only [getField] at herr
    simp only [List.cons_append, invokeSequenceAux, ha]
    rw [hr]
    simp only [herr, Bool.false_eq_true, if_false]
    have IH := ih elem rest (i + 1) env3 (.obj r) hpre2 hmiss
    exact ⟨IH.1, by simp [IH.2]⟩

/-- Witness for C5 at concrete inputs: the sequence 'a, unknown' over a
package defining only `a` (which returns 200) yields exactly the
SequenceBroken error having invoked only `a`. -/
theorem claim_C5_sequence_missing_component_witness :
    (invokeSequenceAux
      (fun _ => .loadedMain (fun _ _ => .returned
        (.obj [("statusCode", .num 200)])))
      (fun _ => "id")
      [("foo", ⟨[("a", ⟨"/a.js", [], [], .bool true⟩)], none⟩)] "foo" []
      ["a", " unknown"] 0 ⟨none, none⟩ .null).1 =
      .response (.obj [("statusCode", .num 400), ("body", .obj [("error",
        .str "Sequence component does not exist.")])])
    ∧ ((invokeSequenceAux
        (fun _ => .loadedMain (fun _ _ => .returned
          (.obj [("statusCode", .num 200)])))
        (fun _ => "id")
        [("foo", ⟨[("a", ⟨"/a.js", [], [], .bool true⟩)], none⟩)] "foo" []
        ["a", " unknown"] 0 ⟨none, none⟩ .null).2.2).map StepRecord.name =
      ["a"] := by
  have h := claim_C5_sequence_missing_component.2
    (fun _ => .loadedMain (fun _ _ => .returned
      (.obj [("statusCode", .num 200)])))
    (fun _ => "id")
    [("foo", ⟨[("a", ⟨"/a.js", [], [], .bool true⟩)], none⟩)] "foo" []
    ["a"] " unknown" [] 0 ⟨none, none⟩ .null
    (by
      intro e he
      rw [List.mem_singleton] at he
      subst he
      refine ⟨⟨"/a.js", [], [], .bool true⟩, by rfl, ?_⟩
      intro i2 env2 params
      obtain ⟨aid, aname⟩ := env2
      exact ⟨[("statusCode", .num 200), ("body", .str "")],
        ⟨some "id", none⟩, by rfl, by rfl⟩)
    (by rfl)
  simp only [List.singleton_append] at h
  refine ⟨h.1, ?_⟩
  rw [h.2]
  rfl

/-- Characterization of the instrumented sequence-loop trace: the first
invoked step runs the first listed name with the initial parameters (at
loop index 0) or the threaded parameters (at a later index); each invoked
step after another received the original context's headers/method, its own
action's inputs and the previous step's full result merged; and a step
returning an error status is the last invoked one, its result being the
loop's final outcome. -/
theorem invokeSequenceAux_trace (loader : Loader) (genId : Nat → String)
    (cfg : ActionConfig) (packageName : String) (sp : Obj) :
    ∀ (names : List String) (i : Nat) (env : ProcEnv) (last : JSV),
    (∀ rec : StepRecord,
      ((invokeSequenceAux loader genId cfg packageName sp names i env
        last).2.2).get? 0 = some rec →
      ∃ n rest2, names = n :: rest2 ∧ rec.name = jsTrim n ∧
        ∃ a, lookupAction cfg packageName (jsTrim n) = some a ∧
          rec.params = (if i = 0 then sp else seqStepParams sp a.inputs last))
    ∧ (∀ (k : Nat) (rec rec2 : StepRecord),
        ((invokeSequenceAux loader genId cfg packageName sp names i env
          last).2.2).get? k = some rec →
        ((invokeSequenceAux loader genId cfg packageName sp names i env
          last).2.2).get? (k + 1) = some rec2 →
        ∃ r : Obj, rec.outcome = .result r ∧
          isErrorStatus (getField r "statusCode") = false ∧
          ∃ a, lookupAction cfg packageName rec2.name = some a ∧
            rec2.params = seqStepParams sp a.inputs (.obj r))
    ∧ (∀ (k : Nat) (rec : StepRecord) (r : Obj),
        ((invokeSequenceAux loader genId cfg packageName sp names i env
          last).2.2).get? k = some rec →
        rec.outcome = .result r →
        isErrorStatus (getField r "statusCode") = true →
        ((invokeSequenceAux loader genId cfg packageName sp names i env
          last).2.2).length = k + 1 ∧
          (invokeSequenceAux loader genId cfg packageName sp names i env
            last).1 = .response (.obj r)) := by
  intro names
  induction names with
  | nil =>
    intro i env last
    refine ⟨?_, ?_, ?_⟩
    · intro rec h
      simp [invokeSequenceAux] at h
    · intro k rec rec2 h1 h2
      simp [invokeSequenceAux] at h1
    · intro k rec r h1 h2 h3
      simp [invokeSequenceAux] at h1
  | cons n rest ih =>
    intro i env last
    cases hA : lookupAction cfg packageName (jsTrim n) with
    | none =>
      have htr : invokeSequenceAux loader genId cfg packageName sp
          (n :: rest) i env last =
          (.response (.obj seqComponentError), env, []) := by
        simp only [invokeSequenceAux, hA]
      refine ⟨?_, ?_, ?_⟩
      · intro rec h
        rw [htr] at h
        simp at h
      · intro k rec rec2 h1 h2
        rw [htr] at h1
        simp at h1
      · intro k rec r h1 h2 h3
        rw [htr] at h1
        simp at h1
    | some a =>
      cases hInv : invokeAction loader env (genId i) a none
        (if i = 0 then sp else seqStepParams sp a.inputs last) with
      | mk o env2 =>
        cases o with
        | uncaught =>
          have htr : invokeSequenceAux loader genId cfg packageName sp
              (n :: rest) i env last =
              (.uncaught, env2, [⟨jsTrim n,
                if i = 0 then sp else seqStepParams sp a.inputs last,
                .uncaught⟩]) := by
            simp only [invokeSequenceAux, hA, hInv]
          refine ⟨?_, ?_, ?_⟩
          · intro rec h
            rw [htr] at h
            simp only [List.get?_cons_zero, Option.some_inj] at h
            exact ⟨n, rest, rfl, by rw [← h], a, hA, by rw [← h]⟩
          · intro k rec rec2 h1 h2
            rw [htr] at h1 h2
            cases k with
            | zero => simp at h2
            | succ k2 => simp at h1
          · intro k rec r h1 h2 h3
            rw [htr] at h1
            cases k with
            | zero =>
              simp only [List.get?_cons_zero, Option.some_inj] at h1
              rw [← h1] at h2
              cases h2
            | succ k2 => simp at h1
        | result r0 =>
          by_cases hErr : isErrorStatus
              ((lookupField r0 "statusCode").getD .undefined) = true
          · have htr : invokeSequenceAux loader genId cfg packageName sp
                (n :: rest) i env last =
                (.response (.obj r0), env2, [⟨jsTrim n,
                  if i = 0 then sp else seqStepParams sp a.inputs last,
                  .result r0⟩]) := by
              simp only [invokeSequenceAux, hA, hInv, hErr, if_true]
            refine ⟨?_, ?_, ?_⟩
            · intro rec h
              rw [htr] at h
              simp only [List.get?_cons_zero, Option.some_inj] at h
              exact ⟨n, rest, rfl, by rw [← h], a, hA, by rw [← h]⟩
            · intro k rec rec2 h1 h2
              rw [htr] at h1 h2
              cases k with
              | zero => simp at h2
              | succ k2 => simp at h1
            · intro k rec r h1 h2 h3
              rw [htr] at h1 ⊢
              cases k with
              | zero =>
                simp only [List.get?_cons_zero, Option.some_inj] at h1
                rw [← h1] at h2
                simp only at h2
                cases h2
                exact ⟨rfl, rfl⟩
              | succ k2 => simp at h1
          · rw [Bool.not_eq_true] at hErr
            have htr : invokeSequenceAux loader genId cfg packageName sp
                (n :: rest) i env last =
                ((invokeSequenceAux loader genId cfg packageName sp rest
                  (i + 1) env2 (.obj r0)).1,
                 (invokeSequenceAux loader genId cfg packageName sp rest
                  (i + 1) env2 (.obj r0)).2.1,
                 ⟨jsTrim n,
                  if i = 0 then sp else seqStepParams sp a.inputs last,
                  .result r0⟩ ::
                 (invokeSequenceAux loader genId cfg packageName sp rest
                  (i + 1) env2 (.obj r0)).2.2) := by
              simp only [invokeSequenceAux, hA, hInv, hErr,
                Bool.false_eq_true, if_false]
            refine ⟨?_, ?_, ?_⟩
            · intro rec h
              rw [htr] at h
              simp only [List.get?_cons_zero, Option.some_inj] at h
              exact ⟨n, rest, rfl, by rw [← h], a, hA, by rw [← h]⟩
            · intro k rec rec2 h1 h2
              rw [htr] at h1 h2
              cases k with
              | zero =>
                simp only [List.get?_cons_zero, Option.some_inj] at h1
                simp only [List.get?_cons_succ] at h2
                obtain ⟨n2, rest3, hrest, hname, a2, hA2, hparams⟩ :=
                  (ih (i + 1) env2 (.obj r0)).1 rec2 h2
                refine ⟨r0, by rw [← h1], hErr, a2, ?_, ?_⟩
                · rw [hname]; exact hA2
                · rw [hparams]
                  simp
              | succ k2 =>
                simp only [List.get?_cons_succ] at h1 h2
                exact (ih (i + 1) env2 (.obj r0)).2.1 k2 rec rec2 h1 h2
            · intro k rec r h1 h2 h3
              rw [htr] at h1 ⊢
              cases k with
              | zero =>
                simp only [List.get?_cons_zero, Option.some_inj] at h1
                rw [← h1] at h2
                simp only at h2
                cases h2
                simp only [getField] at h3
                rw [h3] at hErr
                cases hErr
              | succ k2 =>
                simp only [List.get?_cons_succ] at h1
                obtain ⟨hlen, hout⟩ :=
                  (ih (i + 1) env2 (.obj r0)).2.2 k2 rec r h1 h2 h3
                constructor
                · simp [hlen]
                · exact hout

/-- Claim C1: in every sequence run, the first invoked action is the first
listed (trimmed) name and receives the initial sequence parameters
unchanged; every invoked action after another receives the parameter object
built from the original context's __ow_headers and __ow_method, its own
declared inputs, and all fields of the previous step's result merged on top
(seqStepParams); and a step whose result status is >= 400 is the last one
invoked, its result becoming the sequence's final result. -/
theorem claim_C1_sequence_execution :
    ∀ (loader : Loader) (genId : Nat → String) (cfg : ActionConfig)
      (packageName : String) (s : SequenceDef) (sp : Obj) (env : ProcEnv),
    (∀ rec : StepRecord,
      ((invokeSequence loader genId cfg packageName (some s) sp
        env).2.2).get? 0 = some rec →
      rec.params = sp ∧
      ∃ n rest2, (match s.actions with
        | some str => jsSplit str ','
        | none => []) = n :: rest2 ∧ rec.name = jsTrim n)
    ∧ (∀ (k : Nat) (rec rec2 : StepRecord),
        ((invokeSequence loader genId cfg packageName (some s) sp
          env).2.2).get? k = some rec →
        ((invokeSequence loader genId cfg packageName (some s) sp
          env).2.2).get? (k + 1) = some rec2 →
        ∃ r : Obj, rec.outcome = .result r ∧
          isErrorStatus (getField r "statusCode") = false ∧
          ∃ a, lookupAction cfg packageName rec2.name = some a ∧
            rec2.params = seqStepParams sp a.inputs (.obj r))
    ∧ (∀ (k : Nat) (rec : StepRecord) (r : Obj),
        ((invokeSequence loader genId cfg packageName (some s) sp
          env).2.2).get? k = some rec →
        rec.outcome = .result r →
        isErrorStatus (getField r "statusCode") = true →
        ((invokeSequence loader genId cfg packageName (some s) sp
          env).2.2).length = k + 1 ∧
          (invokeSequence loader genId cfg packageName (some s) sp
            env).1 = .response (.obj r)) := by
  intro loader genId cfg packageName s sp env
  have H := invokeSequenceAux_trace loader genId cfg packageName sp
    (match s.actions with
     | some str => jsSplit str ','
     | none => []) 0 env .null
  refine ⟨?_, ?_, ?_⟩
  · intro rec h
    simp only [invokeSequence] at h
    obtain ⟨n, rest2, hnames, hname, a, hA, hparams⟩ := H.1 rec h
    refine ⟨by rw [hparams]; simp, n, rest2, hnames, hname⟩
  · intro k rec rec2 h1 h2
    simp only [invokeSequence] at h1 h2
    exact H.2.1 k rec rec2 h1 h2
  · intro k rec r h1 h2 h3
    simp only [invokeSequence] at h1 ⊢
    exact H.2.2 k rec r h1 h2 h3

/-- Witness for C1 on the sequence 'a, b' where a yields
{statusCode: 200, payload: 6, body: ''} and b (with default input defb)
yields a 500: the trace records a invoked with the initial parameters, b
invoked with headers/method + defb + all of a's result fields, and the
run stopping at b with b's result as the final outcome. -/
theorem claim_C1_sequence_execution_witness :
    ((⟨"a", [("__ow_headers", .obj [("h", .str "v")]),
        ("__ow_method", .str "get")],
      .result [("statusCode", .num 200), ("payload", .num 6),
        ("body", .str "")]⟩ : StepRecord).params =
      [("__ow_headers", .obj [("h", .str "v")]), ("__ow_method", .str "get")]
      ∧ ∃ n rest2, (match (some "a, b" : Option String) with
          | some str => jsSplit str ','
          | none => []) = n :: rest2 ∧
        (⟨"a", [("__ow_headers", .obj [("h", .str "v")]),
          ("__ow_method", .str "get")],
          .result [("statusCode", .num 200), ("payload", .num 6),
            ("body", .str "")]⟩ : StepRecord).name = jsTrim n)
    ∧ (∃ r : Obj,
        (⟨"a", [("__ow_headers", .obj [("h", .str "v")]),
          ("__ow_method", .str "get")],
          .result [("statusCode", .num 200), ("payload", .num 6),
            ("body", .str "")]⟩ : StepRecord).outcome = .result r ∧
        isErrorStatus (getField r "statusCode") = false ∧
        ∃ a2, lookupAction
            [("foo", ⟨[("a", ⟨"/add.js", [], [], .undefined⟩),
              ("b", ⟨"/sq.js", [("defb", .str "d")], [], .undefined⟩)], none⟩)]
            "foo"
            (⟨"b", [("__ow_headers", .obj [("h", .str "v")]),
              ("__ow_method", .str "get"), ("defb", .str "d"),
              ("statusCode", .num 200), ("payload", .num 6),
              ("body", .str "")],
              .result [("statusCode", .num 500), ("body", .str "")]⟩ :
              StepRecord).name = some a2 ∧
          (⟨"b", [("__ow_headers", .obj [("h", .str "v")]),
            ("__ow_method", .str "get"), ("defb", .str "d"),
            ("statusCode", .num 200), ("payload", .num 6),
            ("body", .str "")],
            .result [("statusCode", .num 500), ("body", .str "")]⟩ :
            StepRecord).params =
            seqStepParams
              [("__ow_headers", .obj [("h", .str "v")]),
               ("__ow_method", .str "get")] a2.inputs (.obj r))
    ∧ (((invokeSequence
        (fun p => if p = "/add.js" then
          .loadedMain (fun _ _ => .returned (.obj [("statusCode", .num 200),
            ("payload", .num 6)]))
         else
          .loadedMain (fun _ _ => .returned (.obj [("statusCode",
            .num 500)])))
        (fun _ => "id")
        [("foo", ⟨[("a", ⟨"/add.js", [], [], .undefined⟩),
          ("b", ⟨"/sq.js", [("defb", .str "d")], [], .undefined⟩)], none⟩)]
        "foo" (some ⟨some "a, b", [], .undefined⟩)
        [("__ow_headers", .obj [("h", .str "v")]),
         ("__ow_method", .str "get")]
        ⟨none, none⟩).2.2).length = 2
      ∧ (invokeSequence
        (fun p => if p = "/add.js" then
          .loadedMain (fun _ _ => .returned (.obj [("statusCode", .num 200),
            ("payload", .num 6)]))
         else
          .loadedMain (fun _ _ => .returned (.obj [("statusCode",
            .num 500)])))
        (fun _ => "id")
        [("foo", ⟨[("a", ⟨"/add.js", [], [], .undefined⟩),
          ("b", ⟨"/sq.js", [("defb", .str "d")], [], .undefined⟩)], none⟩)]
        "foo" (some ⟨some "a, b", [], .undefined⟩)
        [("__ow_headers", .obj [("h", .str "v")]),
         ("__ow_method", .str "get")]
        ⟨none, none⟩).1 =
        .response (.obj [("statusCode", .num 500), ("body", .str "")])) := by
  refine ⟨?_, ?_, ?_⟩
  · exact (claim_C1_sequence_execution
      (fun p => if p = "/add.js" then
        .loadedMain (fun _ _ => .returned (.obj [("statusCode", .num 200),
          ("payload", .num 6)]))
       else
        .loadedMain (fun _ _ => .returned (.obj [("statusCode", .num 500)])))
      (fun _ => "id")
      [("foo", ⟨[("a", ⟨"/add.js", [], [], .undefined⟩),
        ("b", ⟨"/sq.js", [("defb", .str "d")], [], .undefined⟩)], none⟩)]
      "foo" ⟨some "a, b", [], .undefined⟩
      [("__ow_headers", .obj [("h", .str "v")]), ("__ow_method", .str "get")]
      ⟨none, none⟩).1 _ (by rfl)
  · exact (claim_C1_sequence_execution
      (fun p => if p = "/add.js" then
        .loadedMain (fun _ _ => .returned (.obj [("statusCode", .num 200),
          ("payload", .num 6)]))
       else
        .loadedMain (fun _ _ => .returned (.obj [("statusCode", .num 500)])))
      (fun _ => "id")
      [("foo", ⟨[("a", ⟨"/add.js", [], [], .undefined⟩),
        ("b", ⟨"/sq.js", [("defb", .str "d")], [], .undefined⟩)], none⟩)]
      "foo" ⟨some "a, b", [], .undefined⟩
      [("__ow_headers", .obj [("h", .str "v")]), ("__ow_method", .str "get")]
      ⟨none, none⟩).2.1 0 _ _ (by rfl) (by rfl)
  · exact (claim_C1_sequence_execution
      (fun p => if p = "/add.js" then
        .loadedMain (fun _ _ => .returned (.obj [("statusCode", .num 200),
          ("payload", .num 6)]))
       else
        .loadedMain (fun _ _ => .returned (.obj [("statusCode", .num 500)])))
      (fun _ => "id")
      [("foo", ⟨[("a", ⟨"/add.js", [], [], .undefined⟩),
        ("b", ⟨"/sq.js", [("defb", .str "d")], [], .undefined⟩)], none⟩)]
      "foo" ⟨some "a, b", [], .undefined⟩
      [("__ow_headers", .obj [("h", .str "v")]), ("__ow_method", .str "get")]
      ⟨none, none⟩).2.2 1 _ _ (by rfl) (by rfl) (by rfl)

/-- Counterexample to C7 as stated: the synthetic path field is NOT at the
lowest precedence level. For a JSON request whose body sets __ow_path to
evil and whose URL remainder is sub, the synthesizer alone would deliver the
body's value, but the router assigns __ow_path after all merging, so the
action observes sub: the path field ends with the highest precedence, above
the JSON body. -/
theorem claim_C7_counterexample :
    getField (createActionParametersFromRequest
      ⟨"pkg/item/sub", .obj [("__ow_path", .str "evil")], [], [], "GET",
        true⟩ []) "__ow_path" = .str "evil"
    ∧ (serveWebAction
        (fun _ => .loadedMain (fun p _ => .returned (.obj
          [("statusCode", .num 200),
           ("echo", (lookupField p "__ow_path").getD .undefined)])))
        (fun _ => "id") ⟨none, none⟩
        ⟨"pkg/item/sub", .obj [("__ow_path", .str "evil")], [], [], "GET",
          true⟩
        [("pkg", ⟨[("item", ⟨"/e.js", [], [], .bool true⟩)], none⟩)]).1 =
      .response (.obj [("statusCode", .num 200), ("echo", .str "sub"),
        ("body", .str "")]) := by
  exact ⟨rfl, rfl⟩

/-- Claim C7 (amended): the synthesizer's precedence, low to high, is
synthetic body/headers/query/method fields < query string pairs < declared
action inputs < parsed JSON body (only for a JSON request); the __ow_path
field, however, is assigned by the router after all merging and takes the
highest precedence; and x-forwarded-for inside the __ow_headers mapping is
always forced to 127.0.0.1 regardless of any pre-existing request header. -/
theorem claim_C7_parameter_synthesis_amended :
    ∀ (req : Request) (actionInputs : Obj) (owPath : String),
    getField (oset (createActionParametersFromRequest req actionInputs)
      "__ow_path" (.str owPath)) "__ow_path" = .str owPath
    ∧ (∀ key, key ≠ "__ow_path" →
        getField (oset (createActionParametersFromRequest req actionInputs)
          "__ow_path" (.str owPath)) key =
        getField (createActionParametersFromRequest req actionInputs) key)
    ∧ (∀ key v,
        lastBinding (if req.isJson then spreadFields req.body else []) key =
          some v →
        getField (createActionParametersFromRequest req actionInputs) key = v)
    ∧ (∀ key v,
        lastBinding (if req.isJson then spreadFields req.body else []) key =
          none →
        lastBinding actionInputs key = some v →
        getField (createActionParametersFromRequest req actionInputs) key = v)
    ∧ (∀ key v,
        lastBinding (if req.isJson then spreadFields req.body else []) key =
          none →
        lastBinding actionInputs key = none →
        lastBinding req.query key = some v →
        getField (createActionParametersFromRequest req actionInputs) key = v)
    ∧ (lastBinding (if req.isJson then spreadFields req.body else [])
        "__ow_method" = none →
       lastBinding actionInputs "__ow_method" = none →
       lastBinding req.query "__ow_method" = none →
       getField (createActionParametersFromRequest req actionInputs)
         "__ow_method" = .str (jsToLower req.method))
    ∧ (lastBinding (if req.isJson then spreadFields req.body else [])
        "__ow_headers" = none →
       lastBinding actionInputs "__ow_headers" = none →
       lastBinding req.query "__ow_headers" = none →
       JSV.get (getField (createActionParametersFromRequest req actionInputs)
         "__ow_headers") "x-forwarded-for" = .str "127.0.0.1") := by
  intro req actionInputs owPath
  refine ⟨?_, ?_, ?_, ?_, ?_, ?_, ?_⟩
  · exact getField_oset_self _ _ _
  · intro key hk
    exact getField_oset_ne _ _ _ _ hk
  · intro key v hJ
    rw [createActionParametersFromRequest, getField_objLit,
      lastBinding_append, lastBinding_append, lastBinding_append, hJ]
    rfl
  · intro key v hJ hI
    rw [createActionParametersFromRequest, getField_objLit,
      lastBinding_append, lastBinding_append, lastBinding_append, hJ, hI]
    rfl
  · intro key v hJ hI hQ
    rw [createActionParametersFromRequest, getField_objLit,
      lastBinding_append, lastBinding_append, lastBinding_append, hJ, hI, hQ]
    rfl
  · intro hJ hI hQ
    rw [createActionParametersFromRequest, getField_objLit,
      lastBinding_append, lastBinding_append, lastBinding_append, hJ, hI, hQ]
    simp [lastBinding, List.find?]
  · intro hJ hI hQ
    rw [createActionParametersFromRequest, getField_objLit,
      lastBinding_append, lastBinding_append, lastBinding_append, hJ, hI, hQ]
    have hbase : lastBinding [("__ow_body", req.body),
        ("__ow_headers", .obj (objLit
          (req.headers ++ [("x-forwarded-for", .str "127.0.0.1")]))),
        ("__ow_query", .obj (objLit req.query)),
        ("__ow_method", .str (jsToLower req.method))] "__ow_headers" =
        some (.obj (objLit
          (req.headers ++ [("x-forwarded-for", .str "127.0.0.1")]))) := by
      simp [lastBinding, List.find?]
    rw [hbase]
    simp only [Option.getD_some, JSV.get]
    show getField (objLit (req.headers ++
      [("x-forwarded-for", .str "127.0.0.1")])) "x-forwarded-for" =
      .str "127.0.0.1"
    rw [getField_objLit, lastBinding_append]
    simp [lastBinding, List.find?]

/-- Witness for the amended C7 at concrete inputs: a JSON request with
overlapping keys across body/inputs/query, a pre-existing x-forwarded-for
header, and a URL path remainder. -/
theorem claim_C7_parameter_synthesis_amended_witness :
    getField (oset (createActionParametersFromRequest
      ⟨"p/i", .obj [("k", .str "fromBody"), ("m", .str "bm")],
        [("x-forwarded-for", .str "9.9.9.9"), ("H", .str "hv")],
        [("k", .str "fromQuery"), ("q", .str "qv"), ("m2", .str "qm")],
        "GET", true⟩
      [("k", .str "fromInput"), ("m2", .str "im"), ("i", .str "iv")])
      "__ow_path" (.str "rest")) "__ow_path" = .str "rest"
    ∧ getField (createActionParametersFromRequest
        ⟨"p/i", .obj [("k", .str "fromBody"), ("m", .str "bm")],
          [("x-forwarded-for", .str "9.9.9.9"), ("H", .str "hv")],
          [("k", .str "fromQuery"), ("q", .str "qv"), ("m2", .str "qm")],
          "GET", true⟩
        [("k", .str "fromInput"), ("m2", .str "im"), ("i", .str "iv")]) "k" =
      .str "fromBody"
    ∧ getField (createActionParametersFromRequest
        ⟨"p/i", .obj [("k", .str "fromBody"), ("m", .str "bm")],
          [("x-forwarded-for", .str "9.9.9.9"), ("H", .str "hv")],
          [("k", .str "fromQuery"), ("q", .str "qv"), ("m2", .str "qm")],
          "GET", true⟩
        [("k", .str "fromInput"), ("m2", .str "im"), ("i", .str "iv")])
        "m2" = .str "im"
    ∧ getField (createActionParametersFromRequest
        ⟨"p/i", .obj [("k", .str "fromBody"), ("m", .str "bm")],
          [("x-forwarded-for", .str "9.9.9.9"), ("H", .str "hv")],
          [("k", .str "fromQuery"), ("q", .str "qv"), ("m2", .str "qm")],
          "GET", true⟩
        [("k", .str "fromInput"), ("m2", .str "im"), ("i", .str "iv")])
        "q" = .str "qv"
    ∧ getField (createActionParametersFromRequest
        ⟨"p/i", .obj [("k", .str "fromBody"), ("m", .str "bm")],
          [("x-forwarded-for", .str "9.9.9.9"), ("H", .str "hv")],
          [("k", .str "fromQuery"), ("q", .str "qv"), ("m2", .str "qm")],
          "GET", true⟩
        [("k", .str "fromInput"), ("m2", .str "im"), ("i", .str "iv")])
        "__ow_method" = .str "get"
    ∧ JSV.get (getField (createActionParametersFromRequest
        ⟨"p/i", .obj [("k", .str "fromBody"), ("m", .str "bm")],
          [("x-forwarded-for", .str "9.9.9.9"), ("H", .str "hv")],
          [("k", .str "fromQuery"), ("q", .str "qv"), ("m2", .str "qm")],
          "GET", true⟩
        [("k", .str "fromInput"), ("m2", .str "im"), ("i", .str "iv")])
        "__ow_headers") "x-forwarded-for" = .str "127.0.0.1" := by
  refine ⟨?_, ?_, ?_, ?_, ?_, ?_⟩
  · exact (claim_C7_parameter_synthesis_amended _ _ "rest").1
  · exact (claim_C7_parameter_synthesis_amended _
      [("k", .str "fromInput"), ("m2", .str "im"), ("i", .str "iv")]
      "rest").2.2.1 "k" (.str "fromBody") (by rfl)
  · exact (claim_C7_parameter_synthesis_amended _
      [("k", .str "fromInput"), ("m2", .str "im"), ("i", .str "iv")]
      "rest").2.2.2.1 "m2" (.str "im") (by rfl) (by rfl)
  · exact (claim_C7_parameter_synthesis_amended _
      [("k", .str "fromInput"), ("m2", .str "im"), ("i", .str "iv")]
      "rest").2.2.2.2.1 "q" (.str "qv") (by rfl) (by rfl) (by rfl)
  · exact (claim_C7_parameter_synthesis_amended _
      [("k", .str "fromInput"), ("m2", .str "im"), ("i", .str "iv")]
      "rest").2.2.2.2.2.1 (by rfl) (by rfl) (by rfl)
  · exact (claim_C7_parameter_synthesis_amended _
      [("k", .str "fromInput"), ("m2", .str "im"), ("i", .str "iv")]
      "rest").2.2.2.2.2.2 (by rfl) (by rfl) (by rfl)

/-- Claim C8: an item with neither a web-export annotation nor a legacy web
flag is not web-exposed; and a web-route request whose package/item resolves
to nothing, or to a sequence or action that is not web-exposed, is answered
with exactly 404 {error: 'The requested resource does not exist.'} — for
every loader, with the environment untouched, so no action code runs. -/
theorem claim_C8_web_route_not_found :
    (∀ item : ContextItem, webExportValue item = .undefined →
      webValue item = .undefined → isWebAction item = false)
    ∧ (∀ (loader : Loader) (genId : Nat → String) (env : ProcEnv)
        (req : Request) (cfg : ActionConfig),
        lookupSequence cfg (((jsSplit req.urlParam '/').get? 0).getD "")
          (((jsSplit req.urlParam '/').get? 1).getD "") = none →
        lookupAction cfg (((jsSplit req.urlParam '/').get? 0).getD "")
          (((jsSplit req.urlParam '/').get? 1).getD "") = none →
        serveWebAction loader genId env req cfg =
          (.response (.obj [("statusCode", .num 404), ("body", .obj
            [("error", .str "The requested resource does not exist.")])]),
            env))
    ∧ (∀ (loader : Loader) (genId : Nat → String) (env : ProcEnv)
        (req : Request) (cfg : ActionConfig) (s : SequenceDef),
        lookupSequence cfg (((jsSplit req.urlParam '/').get? 0).getD "")
          (((jsSplit req.urlParam '/').get? 1).getD "") = some s →
        isWebAction (.seq s) = false →
        serveWebAction loader genId env req cfg =
          (.response (.obj [("statusCode", .num 404), ("body", .obj
            [("error", .str "The requested resource does not exist.")])]),
            env))
    ∧ (∀ (loader : Loader) (genId : Nat → String) (env : ProcEnv)
        (req : Request) (cfg : ActionConfig) (a : ActionDef),
        lookupSequence cfg (((jsSplit req.urlParam '/').get? 0).getD "")
          (((jsSplit req.urlParam '/').get? 1).getD "") = none →
        lookupAction cfg (((jsSplit req.urlParam '/').get? 0).getD "")
          (((jsSplit req.urlParam '/').get? 1).getD "") = some a →
        isWebAction (.action a) = false →
        serveWebAction loader genId env req cfg =
          (.response (.obj [("statusCode", .num 404), ("body", .obj
            [("error", .str "The requested resource does not exist.")])]),
            env)) := by
  refine ⟨?_, ?_, ?_, ?_⟩
  · intro item h1 h2
    simp [isWebAction, toBoolean, h1, h2, strictEqStr, isFalseLiteral,
      isUndefined]
  · intro loader genId env req cfg hseq hact
    simp only [serveWebAction, hseq, hact]
    rfl
  · intro loader genId env req cfg s hseq hweb
    simp only [serveWebAction, hseq, hweb]
    rfl
  · intro loader genId env req cfg a hseq hact hweb
    simp only [serveWebAction, hseq, hact, hweb]
    rfl

/-- Witness for C8 at concrete inputs: an empty-annotation action is not
web-exposed; an unknown item, a non-web sequence and a non-web action each
draw the exact 404, even under a loader that would fail loudly. -/
theorem claim_C8_web_route_not_found_witness :
    isWebAction (.action ⟨"/a.js", [], [], .undefined⟩) = false
    ∧ serveWebAction (fun _ => .loadFailure) (fun _ => "id") ⟨none, none⟩
        ⟨"pkg/nothing", .undefined, [], [], "GET", false⟩
        [("pkg", ⟨[("bar", ⟨"/a.js", [], [], .bool true⟩)], none⟩)] =
      (.response (.obj [("statusCode", .num 404), ("body", .obj
        [("error", .str "The requested resource does not exist.")])]),
        ⟨none, none⟩)
    ∧ serveWebAction (fun _ => .loadFailure) (fun _ => "id") ⟨none, none⟩
        ⟨"pkg/sq", .undefined, [], [], "GET", false⟩
        [("pkg", ⟨[], some [("sq", ⟨some "a", [], .undefined⟩)]⟩)] =
      (.response (.obj [("statusCode", .num 404), ("body", .obj
        [("error", .str "The requested resource does not exist.")])]),
        ⟨none, none⟩)
    ∧ serveWebAction (fun _ => .loadFailure) (fun _ => "id") ⟨none, none⟩
        ⟨"pkg/bar", .undefined, [], [], "GET", false⟩
        [("pkg", ⟨[("bar", ⟨"/a.js", [], [], .undefined⟩)], none⟩)] =
      (.response (.obj [("statusCode", .num 404), ("body", .obj
        [("error", .str "The requested resource does not exist.")])]),
        ⟨none, none⟩) := by
  refine ⟨?_, ?_, ?_, ?_⟩
  · exact claim_C8_web_route_not_found.1 (.action ⟨"/a.js", [], [], .undefined⟩)
      (by rfl) (by rfl)
  · exact claim_C8_web_route_not_found.2.1 _ _ _ _ _ (by rfl) (by rfl)
  · exact claim_C8_web_route_not_found.2.2.1 _ _ _ _ _ _ (by rfl) (by rfl)
  · exact claim_C8_web_route_not_found.2.2.2 _ _ _ _ _ _ (by rfl) (by rfl)
      (by rfl)

/-- Claim C10: when a package declares both a sequence and an action under
the requested item name, the router dispatches the sequence: the
web-exposure test is made on the sequence and the invoker is the sequence
executor (the action contributes only its declared inputs to the synthesized
context, which the router reads from the action lookup regardless of the
dispatch target). -/
theorem claim_C10_sequence_precedence :
    ∀ (loader : Loader) (genId : Nat → String) (env : ProcEnv)
      (req : Request) (cfg : ActionConfig) (s : SequenceDef) (a : ActionDef),
      lookupSequence cfg (((jsSplit req.urlParam '/').get? 0).getD "")
        (((jsSplit req.urlParam '/').get? 1).getD "") = some s →
      lookupAction cfg (((jsSplit req.urlParam '/').get? 0).getD "")
        (((jsSplit req.urlParam '/').get? 1).getD "") = some a →
      serveWebAction loader genId env req cfg =
        (if isWebAction (.seq s) then
          (match (invokeSequence loader genId cfg
            (((jsSplit req.urlParam '/').get? 0).getD "") (some s)
            (oset (createActionParametersFromRequest req a.inputs)
              "__ow_path"
              (.str (jsJoin '/' ((jsSplit req.urlParam '/').drop 2))))
            env).1 with
          | .response v => (.response v,
              (invokeSequence loader genId cfg
                (((jsSplit req.urlParam '/').get? 0).getD "") (some s)
                (oset (createActionParametersFromRequest req a.inputs)
                  "__ow_path"
                  (.str (jsJoin '/'
                    ((jsSplit req.urlParam '/').drop 2)))) env).2.1)
          | .uncaught => (.uncaught,
              (invokeSequence loader genId cfg
                (((jsSplit req.urlParam '/').get? 0).getD "") (some s)
                (oset (createActionParametersFromRequest req a.inputs)
                  "__ow_path"
                  (.str (jsJoin '/'
                    ((jsSplit req.urlParam '/').drop 2)))) env).2.1))
         else
          (.response (.obj [("statusCode", .num 404), ("body", .obj
            [("error", .str "The requested resource does not exist.")])]),
            env)) := by
  intro loader genId env req cfg s a hseq hact
  by_cases hweb : isWebAction (.seq s) = true
  · simp only [serveWebAction, hseq, hact, hweb, if_true, Bool.not_true,
      Bool.false_eq_true, if_false]
    rfl
  · rw [Bool.not_eq_true] at hweb
    simp only [serveWebAction, hseq, hact, hweb, Bool.false_eq_true,
      if_false, Bool.not_false, if_true]
    rfl

/-- Witness for C10 at a concrete manifest where package pkg declares both a
sequence and an action named dup (both web-exposed): the response comes from
the sequence's single component x, not from the action dup's own code. -/
theorem claim_C10_sequence_precedence_witness :
    serveWebAction
      (fun p => if p = "/x.js" then
        .loadedMain (fun _ _ => .returned (.obj [("statusCode", .num 200),
          ("body", .str "seq")]))
       else
        .loadedMain (fun _ _ => .returned (.obj [("statusCode", .num 200),
          ("body", .str "act")])))
      (fun _ => "id") ⟨none, none⟩ ⟨"pkg/dup", .undefined, [], [], "GET", false⟩
      [("pkg", ⟨[("dup", ⟨"/dup.js", [], [], .bool true⟩),
        ("x", ⟨"/x.js", [], [], .undefined⟩)],
        some [("dup", ⟨some "x", [], .bool true⟩)]⟩)] =
      (.response (.obj [("statusCode", .num 200), ("body", .str "seq")]),
        ⟨some "id", none⟩) := by
  rw [claim_C10_sequence_precedence
    (fun p => if p = "/x.js" then
      .loadedMain (fun _ _ => .returned (.obj [("statusCode", .num 200),
        ("body", .str "seq")]))
     else
      .loadedMain (fun _ _ => .returned (.obj [("statusCode", .num 200),
        ("body", .str "act")])))
    (fun _ => "id") ⟨none, none⟩ ⟨"pkg/dup", .undefined, [], [], "GET", false⟩
    [("pkg", ⟨[("dup", ⟨"/dup.js", [], [], .bool true⟩),
      ("x", ⟨"/x.js", [], [], .undefined⟩)],
      some [("dup", ⟨some "x", [], .bool true⟩)]⟩)]
    ⟨some "x", [], .bool true⟩ ⟨"/dup.js", [], [], .bool true⟩
    (by rfl) (by rfl)]
  rfl

/-- Witness for C4 at concrete inputs: an auth-requiring action with no
headers is rejected naming authorization; with only authorization, naming
x-gw-ims-org-id; with both (one upper-case), it passes; and the rejection is
what a full invocation returns, for a loader it never consults. -/
theorem claim_C4_auth_gatekeeper_witness :
    authGate ⟨"/a.js", [], [("require-adobe-auth", .bool true)], .undefined⟩ [] =
      some [("statusCode", .num 401), ("body", .obj [("error", .str
        "cannot authorize request, reason: missing authorization header")])]
    ∧ authGate ⟨"/a.js", [], [("require-adobe-auth", .bool true)], .undefined⟩
        [("__ow_headers", .obj [("Authorization", .str "k")])] =
      some [("statusCode", .num 401), ("body", .obj [("error", .str
        "cannot authorize request, reason: missing x-gw-ims-org-id header")])]
    ∧ authGate ⟨"/a.js", [], [("require-adobe-auth", .bool true)], .undefined⟩
        [("__ow_headers", .obj [("Authorization", .str "k"),
          ("x-gw-ims-org-id", .str "o")])] = none
    ∧ invokeAction (fun _ => .loadFailure) ⟨none, none⟩ "newid"
        ⟨"/a.js", [], [("require-adobe-auth", .bool true)], .undefined⟩ none [] =
      (.result [("statusCode", .num 401), ("body", .obj [("error", .str
        "cannot authorize request, reason: missing authorization header")])],
        ⟨none, none⟩) := by
  refine ⟨?_, ?_, ?_, ?_⟩
  · exact ((claim_C4_auth_gatekeeper.2.1 _ _ (by rfl)).1 (by rfl))
  · exact ((claim_C4_auth_gatekeeper.2.1 _ _ (by rfl)).2.1 (by rfl) (by rfl))
  · exact ((claim_C4_auth_gatekeeper.2.1 _ _ (by rfl)).2.2 (by rfl) (by rfl))
  · exact (claim_C4_auth_gatekeeper.2.2 _ _ _ _ _ _ _
      ((claim_C4_auth_gatekeeper.2.1 _ _ (by rfl)).1 (by rfl)))

end RunAction
